import Mathlib

/-!
Verification development for the deployment-tracking valuation service.

The Go source is shallowly embedded: float64 arithmetic is modelled by the
rationals, Go machine integers by Int, fallible operations by Except, and
each network round trip by an explicit environment parameter carrying the
decoded upstream response.  Operations whose claims concern the number of
network calls additionally return the count of upstream queries issued on
the executed path (price-cache internals are not counted).
-/

namespace DeplTrack

/-! ## Basic helpers -/

/-- Power of ten used for decimal adjustment, mirroring math.Pow(10, d). -/
def pow10 (d : Int) : ℚ := (10 : ℚ) ^ d

/-- Digit run to Nat; none when the run is empty or holds a non-digit. -/
def digitsToNat (cs : List Char) : Option Nat :=
  if cs.isEmpty then none
  else if cs.all Char.isDigit then
    some (cs.foldl (fun n c => n * 10 + (c.toNat - 48)) 0)
  else none

/-- Model of strconv.ParseInt(s, 10, 64) on decimal literals with an
optional minus sign; int64 overflow clamping is not modelled (no claim
depends on 19-digit amounts). -/
def parseInt64 (s : String) : Option Int :=
  match s.data with
  | '-' :: rest => (digitsToNat rest).map (fun n => -(n : Int))
  | cs => (digitsToNat cs).map (fun n => (n : Int))

/-- Integer and fraction parts around the first decimal point. -/
def splitDot : List Char → List Char × Option (List Char)
  | [] => ([], none)
  | '.' :: rest => ([], some rest)
  | c :: rest =>
    let r := splitDot rest
    (c :: r.1, r.2)

/-- Model of strconv.ParseFloat on the plain decimal literals produced by
the chain APIs (optional minus sign, digits, optional fraction). -/
def parseFloat (s : String) : Option ℚ :=
  let core : List Char → Option ℚ := fun cs =>
    let r := splitDot cs
    match r.2 with
    | none => (digitsToNat r.1).map (fun n => (n : ℚ))
    | some f =>
      match digitsToNat r.1, digitsToNat f with
      | some n, some m => some ((n : ℚ) + (m : ℚ) / pow10 (Int.ofNat f.length))
      | _, _ => none
  match s.data with
  | '-' :: rest => (core rest).map Neg.neg
  | cs => core cs

/-- Boolean success test for Except values. -/
def exceptOk {ε α : Type} : Except ε α → Bool
  | .ok _ => true
  | .error _ => false

/-- Character-list prefix test, helper for the substring test. -/
def leadsWith : List Char → List Char → Bool
  | [], _ => true
  | _ :: _, [] => false
  | p :: ps, c :: cs => p == c && leadsWith ps cs

/-- Substring occurrence on character lists. -/
def containsSub : List Char → List Char → Bool
  | [], pat => pat.isEmpty
  | c :: rest, pat => leadsWith pat (c :: rest) || containsSub rest pat

/-- Substring test, mirroring strings.Contains. -/
def strContains (s pat : String) : Bool := containsSub s.data pat.data

/-! ## Core data model (types.go) -/

/-- Token metadata entry of a chain registry (struct ChainTokenInfo). -/
structure ChainTokenInfo where
  denom : String
  display : String
  decimals : Int
  coingeckoID : String
deriving Repr, DecidableEq

/-- The zero value a Go map index yields for an absent key. -/
def zeroTokenInfo : ChainTokenInfo := ⟨"", "", 0, ""⟩

/-- Per-chain token catalog (struct ChainInfo); the token map is kept as an
association list so that map iteration order stays explicit. -/
structure ChainInfo where
  chainID : String
  tokens : List (String × ChainTokenInfo)
deriving Repr, DecidableEq

/-- Lookup with explicit failure (func (c *ChainInfo) GetTokenInfo). -/
def ChainInfo.GetTokenInfo (c : ChainInfo) (denom : String) :
    Except String ChainTokenInfo :=
  match c.tokens.lookup denom with
  | some info => .ok info
  | none => .error ("token info not found for denom: " ++ denom)

/-- One valued balance entry (struct Asset); the optional coingecko pointer
field is omitted because no embedded operation ever sets it. -/
structure Asset where
  denom : String
  amount : ℚ
  usdValue : ℚ
  displayName : String
deriving Repr, DecidableEq

/-- Valuation result (struct Holdings). -/
structure Holdings where
  balances : List Asset
  totalUSDC : ℚ
  totalAtom : ℚ
deriving Repr, DecidableEq

/-- Aggregation-consistency predicate: the USD total equals the sum of the
per-asset USD values. -/
def Holdings.consistent (h : Holdings) : Prop :=
  h.totalUSDC = (h.balances.map Asset.usdValue).sum

instance (h : Holdings) : Decidable h.consistent := by
  unfold Holdings.consistent; infer_instance

/-! ## Price resolution (prices.go) -/

/-- Snapshot of the coingecko price cache after a refresh: priceSourceId to
USD price. -/
abbrev PriceMap : Type := List (String × ℚ)

/-- Cache lookup of func getTokenPrice after the refresh step; an id absent
even after refresh fails explicitly. -/
def getTokenPrice (prices : PriceMap) (coingeckoId : String) : Except String ℚ :=
  match List.lookup coingeckoId prices with
  | some p => .ok p
  | none => .error ("no price found for token: " ++ coingeckoId)

/-- Reference-asset price (func getAtomPrice). -/
def getAtomPrice (prices : PriceMap) : Except String ℚ :=
  getTokenPrice prices "cosmos"

/-- Valuation of an adjusted amount in USD and ATOM (func getTokenValues).
The division is performed unconditionally, exactly as in the source; a zero
ATOM price is not rejected. -/
def getTokenValues (prices : PriceMap) (adjustedAmount : ℚ)
    (tokenInfo : ChainTokenInfo) : Except String (ℚ × ℚ) :=
  match getTokenPrice prices tokenInfo.coingeckoID with
  | .error e => .error ("fetching token price: " ++ e)
  | .ok price =>
    let usdValue := adjustedAmount * price
    match getAtomPrice prices with
    | .error e => .error ("fetching ATOM price: " ++ e)
    | .ok atomPrice => .ok (usdValue, usdValue / atomPrice)

/-- Assembly helper of the Osmosis adapter (func createHoldings): a
non-positive ATOM price yields a zero ATOM total instead of a failure. -/
def createHoldings (assets : List Asset) (totalUSD : ℚ) (atomPrice : ℚ) :
    Holdings :=
  let totalAtom := if 0 < atomPrice then totalUSD / atomPrice else 0
  ⟨assets, totalUSD, totalAtom⟩

/-! ## Token catalog construction (utils.go, func fetchAssetList) -/

/-- One entry of the primary chain-registry asset list after the type-checked
JSON casts: each field is present only when the cast succeeded. -/
structure PrimaryAsset where
  denom : Option String
  symbol : Option String
  decimals : Option Int
  coingeckoID : Option String
deriving Repr, DecidableEq

/-- One entry of the secondary (Skip) registry (struct SkipAsset); only the
fields consumed by the merge are kept. -/
structure SkipAsset where
  symbol : String
  decimals : Int
  coingeckoID : String
  recommendedSymbol : String
deriving Repr, DecidableEq

/-- Go map assignment on an association list: replace the binding when the
key is present, append it otherwise. -/
def assocSet {β : Type} (m : List (String × β)) (k : String) (v : β) :
    List (String × β) :=
  if (m.lookup k).isSome then
    m.map (fun p => if p.1 == k then (k, v) else p)
  else m ++ [(k, v)]

/-- First phase of fetchAssetList: populate the token map from the primary
registry, skipping entries without a denom and defaulting absent fields to
the Go zero values. -/
def buildPrimaryTokens (assets : List PrimaryAsset) :
    List (String × ChainTokenInfo) :=
  assets.foldl
    (fun tokens asset =>
      match asset.denom with
      | none => tokens
      | some denom =>
        assocSet tokens denom
          ⟨denom, asset.symbol.getD "", (asset.decimals.getD 0),
            asset.coingeckoID.getD ""⟩)
    []

/-- TokenInfo derived from a secondary-registry entry. -/
def skipToken (denom : String) (a : SkipAsset) : ChainTokenInfo :=
  ⟨denom, a.recommendedSymbol, a.decimals, a.coingeckoID⟩

/-- Second phase of fetchAssetList: secondary-registry denoms fill only the
denoms absent from the primary result. -/
def addSkipTokens (tokens : List (String × ChainTokenInfo))
    (skip : List (String × SkipAsset)) : List (String × ChainTokenInfo) :=
  skip.foldl
    (fun t p => if (t.lookup p.1).isSome then t else assocSet t p.1 (skipToken p.1 p.2))
    tokens

/-- The merged token map built by fetchAssetList for one chain. -/
def fetchAssetListTokens (primary : List PrimaryAsset)
    (skip : List (String × SkipAsset)) : List (String × ChainTokenInfo) :=
  addSkipTokens (buildPrimaryTokens primary) skip

/-! ## Shared loop skeleton

Several adapter loops share the same shape: process one item, drop it on any
lookup or price failure (the continue branches), otherwise append the asset
and add its USD and ATOM values to the running totals.  The per-adapter step
functions below mirror the respective loop bodies. -/

/-- Fold mirroring the drop-on-failure accumulation loops. -/
def accumAssets {γ : Type} (step : γ → Option (Asset × ℚ)) (items : List γ) :
    List Asset × ℚ × ℚ :=
  items.foldl
    (fun acc x =>
      match step x with
      | none => acc
      | some (a, atomValue) => (acc.1 ++ [a], acc.2.1 + a.usdValue, acc.2.2 + atomValue))
    ([], 0, 0)

/-! ## Duality adapter (duality.go) -/

/-- Venue position configuration of the Duality adapter. -/
structure DualityVenuePositionConfig where
  poolAddress : String
  address : String
  activeShares : Int
deriving Repr, DecidableEq

/-- One element of the get_balance response list; a field is none when the
corresponding type-checked cast failed. -/
structure DualityPoolEntry where
  denom : Option String
  amount : Option String
deriving Repr, DecidableEq

/-- Body of the ComputeTVL loop of the Duality adapter; any failing cast,
parse, token lookup or price lookup drops the entry. -/
def dualityTVLStep (assetData : ChainInfo) (prices : PriceMap)
    (entry : Option DualityPoolEntry) : Option (Asset × ℚ) :=
  match entry with
  | none => none
  | some e =>
    match e.denom with
    | none => none
    | some denom =>
      match e.amount with
      | none => none
      | some amountStr =>
        match parseInt64 amountStr with
        | none => none
        | some amount =>
          match assetData.GetTokenInfo denom with
          | .error _ => none
          | .ok tokenInfo =>
            let adjustedAmount := (amount : ℚ) / pow10 tokenInfo.decimals
            match getTokenValues prices adjustedAmount tokenInfo with
            | .error _ => none
            | .ok (usdValue, atomValue) =>
              some (⟨denom, adjustedAmount, usdValue, tokenInfo.display⟩, atomValue)

/-- TVL of the Duality pool (func (p DualityPosition) ComputeTVL); the
poolData parameter carries the decoded get_balance contract response, with
none standing for a response that is not a list. -/
def DualityPosition.ComputeTVL (assetData : ChainInfo) (prices : PriceMap)
    (poolData : Except String (Option (List (Option DualityPoolEntry)))) :
    Except String (Option Holdings) :=
  match poolData with
  | .error e => .error ("querying pool data: " ++ e)
  | .ok none => .error ("expected poolData to be a list")
  | .ok (some pairDataList) =>
    let r := accumAssets (dualityTVLStep assetData prices) pairDataList
    .ok (some ⟨r.1, r.2.1, r.2.2⟩)

/-- Decoded token_0 or token_1 field of the pool configuration. -/
structure DualityTokenField where
  denom : Option String
deriving Repr, DecidableEq

/-- Decoded pair_data field of the pool configuration. -/
structure DualityPairData where
  token0 : Option DualityTokenField
  token1 : Option DualityTokenField
deriving Repr, DecidableEq

/-- Decoded get_config contract response. -/
structure DualityConfigData where
  pairData : Option DualityPairData
deriving Repr, DecidableEq

/-- Pool asset pair extraction (func getPoolAssets); validates the nested
response structure step by step. -/
def getPoolAssets
    (configData : Except String (Option DualityConfigData)) :
    Except String (List Asset) :=
  match configData with
  | .error e => .error ("querying pool config: " ++ e)
  | .ok none => .error ("invalid configData format: expected map")
  | .ok (some cfgMap) =>
    match cfgMap.pairData with
    | none => .error ("missing or invalid pair_data in configData")
    | some pairData =>
      match pairData.token0 with
      | none => .error ("missing or invalid token_0 in pair_data")
      | some token0 =>
        match pairData.token1 with
        | none => .error ("missing or invalid token_1 in pair_data")
        | some token1 =>
          match token0.denom with
          | none => .error ("missing or invalid denom in token_0")
          | some token0Denom =>
            match token1.denom with
            | none => .error ("missing or invalid denom in token_1")
            | some token1Denom =>
              .ok [⟨token0Denom, 0, 0, ""⟩, ⟨token1Denom, 0, 0, ""⟩]

/-- Upstream responses consumed by the Duality principal computation. -/
structure DualityEnv where
  simulateWithdraw : Int → Except String (Option (List String))
  getConfig : Except String (Option DualityConfigData)

/-- Body of the principal loop: the simulated withdrawal amount at index i is
matched positionally with the pool asset at index i. -/
def dualityPrincipalStep (assetData : ChainInfo) (prices : PriceMap)
    (x : String × Asset) : Option (Asset × ℚ) :=
  match parseInt64 x.1 with
  | none => none
  | some amount =>
    let denom := x.2.denom
    match assetData.GetTokenInfo denom with
    | .error _ => none
    | .ok tokenInfo =>
      let adjustedAmount := (amount : ℚ) / pow10 tokenInfo.decimals
      match getTokenValues prices adjustedAmount tokenInfo with
      | .error _ => none
      | .ok (usdValue, atomValue) =>
        some (⟨denom, adjustedAmount, usdValue, tokenInfo.display⟩, atomValue)

/-- Principal holdings of the Duality adapter
(func (p DualityPosition) ComputeAddressPrincipalHoldings): the recorded
active shares are fed into the withdrawal simulation unconditionally; the
second component counts the contract queries issued on the executed path. -/
def DualityPosition.ComputeAddressPrincipalHoldings
    (cfg : DualityVenuePositionConfig) (env : DualityEnv)
    (assetData : ChainInfo) (prices : PriceMap) :
    Except String (Option Holdings) × Nat :=
  let totalLPAmount := cfg.activeShares
  match env.simulateWithdraw totalLPAmount with
  | .error e => (.error ("simulating withdrawal: " ++ e), 1)
  | .ok none =>
    (.error ("unexpected data format: expected an array of token amounts"), 1)
  | .ok (some amounts) =>
    if amounts.length ≠ 2 then
      (.error ("unexpected data format: expected 2 token amounts"), 1)
    else
      match getPoolAssets env.getConfig with
      | .error e => (.error ("getting pool assets: " ++ e), 2)
      | .ok poolAssets =>
        let r := accumAssets (dualityPrincipalStep assetData prices)
          (amounts.zip poolAssets)
        (.ok (some ⟨r.1, r.2.1, r.2.2⟩), 2)

/-- Reward holdings of the Duality adapter: the protocol folds yield into
principal, so an explicit zero Holdings is returned. -/
def DualityPosition.ComputeAddressRewardHoldings (assetData : ChainInfo)
    (address : String) : Except String (Option Holdings) :=
  .ok (some ⟨[], 0, 0⟩)

/-! ## Astroport adapter -/

/-- One decoded native-token asset entry of a pool, share or rewards
response (nested info/native_token/denom plus the amount string). -/
structure AstroAssetEntry where
  denom : String
  amount : String
deriving Repr, DecidableEq

/-- Body of the three Astroport asset loops, which are textually identical in
the source: parse errors are ignored (the Go two-value ParseInt form yields
zero), token and price failures drop the entry. -/
def astroAssetStep (assetData : ChainInfo) (prices : PriceMap)
    (a : AstroAssetEntry) : Option (Asset × ℚ) :=
  let amount := (parseInt64 a.amount).getD 0
  match assetData.GetTokenInfo a.denom with
  | .error _ => none
  | .ok tokenInfo =>
    let adjustedAmount := (amount : ℚ) / pow10 tokenInfo.decimals
    match getTokenValues prices adjustedAmount tokenInfo with
    | .error _ => none
    | .ok (usdValue, atomValue) =>
      some (⟨a.denom, adjustedAmount, usdValue, tokenInfo.display⟩, atomValue)

/-- Upstream responses consumed by the Astroport adapter. -/
structure AstroportEnv where
  poolData : Except String (List AstroAssetEntry)
  pairData : Except String String
  bankBalances : Except String (List (String × String))
  cw20Balance : Except String (Option (Option String))
  stakedDeposit : Except String String
  share : Int → Except String (List AstroAssetEntry)
  rewards : Except String (List AstroAssetEntry)

/-- TVL of the Astroport pool (func (p AstroportPosition) ComputeTVL). -/
def AstroportPosition.ComputeTVL (env : AstroportEnv) (assetData : ChainInfo)
    (prices : PriceMap) : Except String (Option Holdings) :=
  match env.poolData with
  | .error e => .error ("querying pool data: " ++ e)
  | .ok assets =>
    let r := accumAssets (astroAssetStep assetData prices) assets
    .ok (some ⟨r.1, r.2.1, r.2.2⟩)

/-- LP token denom of the pair (func GetLPToken). -/
def GetLPToken (pairData : Except String String) : Except String String :=
  match pairData with
  | .error e => .error ("querying pair info: " ++ e)
  | .ok lpToken => .ok lpToken

/-- Wallet plus staked LP amount
(func (p AstroportPosition) getTotalLPAmount): the native balance is read
first, a CW20 balance is consulted only when that is zero and its errors are
ignored, and the staked deposit query is mandatory. -/
def getTotalLPAmount (env : AstroportEnv) (lpToken : String) :
    Except String Int :=
  match env.bankBalances with
  | .error e => .error ("querying balance: " ++ e)
  | .ok balances =>
    let walletBalance :=
      match balances.find? (fun b => b.1 == lpToken) with
      | some b => (parseInt64 b.2).getD 0
      | none => 0
    let walletBalance :=
      if walletBalance = 0 then
        match env.cw20Balance with
        | .ok (some (some balanceStr)) => (parseInt64 balanceStr).getD 0
        | _ => walletBalance
      else walletBalance
    match env.stakedDeposit with
    | .error e => .error ("querying staked balance: " ++ e)
    | .ok stakedData => .ok (walletBalance + (parseInt64 stakedData).getD 0)

/-- Principal holdings of the Astroport adapter
(func (p AstroportPosition) ComputeAddressPrincipalHoldings). -/
def AstroportPosition.ComputeAddressPrincipalHoldings (env : AstroportEnv)
    (assetData : ChainInfo) (prices : PriceMap) :
    Except String (Option Holdings) :=
  match GetLPToken env.pairData with
  | .error e => .error e
  | .ok lpToken =>
    match getTotalLPAmount env lpToken with
    | .error e => .error ("getting total LP amount: " ++ e)
    | .ok totalLPAmount =>
      match env.share totalLPAmount with
      | .error e => .error ("simulating withdrawal: " ++ e)
      | .ok assets =>
        let r := accumAssets (astroAssetStep assetData prices) assets
        .ok (some ⟨r.1, r.2.1, r.2.2⟩)

/-- Reward holdings of the Astroport adapter
(func (p AstroportPosition) ComputeAddressRewardHoldings): the no-position
error response is recognised by substring match and turned into an explicit
empty result. -/
def AstroportPosition.ComputeAddressRewardHoldings (env : AstroportEnv)
    (assetData : ChainInfo) (prices : PriceMap) :
    Except String (Option Holdings) :=
  match GetLPToken env.pairData with
  | .error e => .error e
  | .ok _lpToken =>
    match env.rewards with
    | .error e =>
      if strContains e "doesn\x27t have position" then .ok (some ⟨[], 0, 0⟩)
      else .error ("querying rewards: " ++ e)
    | .ok rewards =>
      let r := accumAssets (astroAssetStep assetData prices) rewards
      .ok (some ⟨r.1, r.2.1, r.2.2⟩)

/-! ## Elys adapter -/

/-- Pool type discriminator (type PoolType string). -/
def Stablestake : String := "stablestake"

/-- AMM pool type constant. -/
def ElysAMM : String := "amm"

/-- Reward denom queried for USDC rewards. -/
def UsdcRewardDenomForQuery : String :=
  "ibc%2FF082B65C88E4B6D5EF1DB243CDA1D331D002759E938A0F5CD3FFDC5D53B3E349"

/-- Reward denom queried for EDEN rewards. -/
def UedenRewardDenom : String := "ueden"

/-- Venue position configuration of the Elys adapter; the active shares are
a float64 in the source. -/
structure ElysVenuePositionConfig where
  poolId : String
  address : String
  activeShares : ℚ
  poolType : String
deriving Repr, DecidableEq

/-- Decoded pool object of the stablestake pool response. -/
structure ElysPoolFields where
  depositDenom : Option String
  netAmount : Option String
  redemptionRate : Option String
deriving Repr, DecidableEq

/-- Decoded stablestake pool response. -/
structure ElysStablestakeResp where
  pool : Option ElysPoolFields
deriving Repr, DecidableEq

/-- Decoded token object inside an AMM pool asset. -/
structure ElysAMMToken where
  amount : Option String
  denom : Option String
deriving Repr, DecidableEq

/-- Decoded AMM pool asset. -/
structure ElysAMMAsset where
  token : Option ElysAMMToken
deriving Repr, DecidableEq

/-- Decoded pool object of the AMM pool response. -/
structure ElysAMMPoolFields where
  poolAssets : Option (List (Option ElysAMMAsset))
deriving Repr, DecidableEq

/-- Decoded AMM pool response; extraInfo is the extra_info object with its
lp_token_price string. -/
structure ElysAMMResp where
  pool : Option ElysAMMPoolFields
  extraInfo : Option (Option String)
deriving Repr, DecidableEq

/-- Decoded user_reward_info object. -/
structure ElysRewardInfo where
  rewardDenom : Option String
  rewardPending : Option String
deriving Repr, DecidableEq

/-- Upstream responses consumed by the Elys adapter; rewardInfo maps a query
denom to the decoded masterchef response (error = transport, status or
decode failure; none = missing user_reward_info object). -/
structure ElysEnv where
  stablestakePool : Except String ElysStablestakeResp
  ammPool : Except String ElysAMMResp
  rewardInfo : String → Except String (Option ElysRewardInfo)

/-- Stablestake TVL (func (p ElysPosition) computeStablestakeTVL). -/
def ElysPosition.computeStablestakeTVL (env : ElysEnv) (assetData : ChainInfo)
    (prices : PriceMap) : Except String (Option Holdings) :=
  match env.stablestakePool with
  | .error e => .error e
  | .ok poolData =>
    match poolData.pool with
    | none => .error ("missing or invalid pool data")
    | some pool =>
      match pool.depositDenom with
      | none => .error ("missing or invalid deposit_denom in pool data")
      | some depositDenom =>
        match pool.netAmount with
        | none => .error ("missing or invalid net_amount in pool data")
        | some netAmountStr =>
          match parseInt64 netAmountStr with
          | none => .error ("parsing net_amount")
          | some amount =>
            match assetData.GetTokenInfo depositDenom with
            | .error e => .error ("getting token info: " ++ e)
            | .ok tokenInfo =>
              let adjustedAmount := (amount : ℚ) / pow10 tokenInfo.decimals
              match getTokenValues prices adjustedAmount tokenInfo with
              | .error e => .error ("calculating token values: " ++ e)
              | .ok (usdValue, atomValue) =>
                .ok (some ⟨[⟨depositDenom, adjustedAmount, usdValue,
                  tokenInfo.display⟩], usdValue, atomValue⟩)

/-- Recursion over the AMM pool assets: unlike the drop-on-failure loops,
every failure here aborts the whole computation. -/
def elysAMMTVLAssets (assetData : ChainInfo) (prices : PriceMap) :
    List (Option ElysAMMAsset) → Except String (List Asset × ℚ × ℚ)
  | [] => .ok ([], 0, 0)
  | none :: _ => .error ("invalid asset data format")
  | some poolAsset :: rest =>
    match poolAsset.token with
    | none => .error ("missing or invalid token data in asset")
    | some token =>
      match token.amount with
      | none => .error ("missing or invalid amount in token data")
      | some amountStr =>
        match token.denom with
        | none => .error ("missing or invalid denom in token data")
        | some denom =>
          match parseInt64 amountStr with
          | none => .error ("parsing token amount")
          | some amount =>
            match assetData.GetTokenInfo denom with
            | .error e =>
              .error ("getting token info for denom " ++ denom ++ ": " ++ e)
            | .ok tokenInfo =>
              let adjustedAmount := (amount : ℚ) / pow10 tokenInfo.decimals
              match getTokenValues prices adjustedAmount tokenInfo with
              | .error e =>
                .error ("calculating token values for denom " ++ denom ++ ": " ++ e)
              | .ok (usdValue, atomValue) =>
                match elysAMMTVLAssets assetData prices rest with
                | .error e => .error e
                | .ok (assets, usdTotal, atomTotal) =>
                  .ok (⟨denom, adjustedAmount, usdValue, tokenInfo.display⟩ :: assets,
                    usdValue + usdTotal, atomValue + atomTotal)

/-- AMM TVL (func (p ElysPosition) computeAMMTVL). -/
def ElysPosition.computeAMMTVL (env : ElysEnv) (assetData : ChainInfo)
    (prices : PriceMap) : Except String (Option Holdings) :=
  match env.ammPool with
  | .error e => .error ("fetching AMM pool data: " ++ e)
  | .ok poolData =>
    match poolData.pool with
    | none => .error ("missing or invalid pool data")
    | some pool =>
      match pool.poolAssets with
      | none => .error ("missing or invalid pool_assets in pool data")
      | some poolAssetsData =>
        match elysAMMTVLAssets assetData prices poolAssetsData with
        | .error e => .error e
        | .ok (poolAssets, usdTotal, atomTotal) =>
          .ok (some ⟨poolAssets, usdTotal, atomTotal⟩)

/-- TVL dispatch over the pool type (func (p ElysPosition) ComputeTVL). -/
def ElysPosition.ComputeTVL (cfg : ElysVenuePositionConfig) (env : ElysEnv)
    (assetData : ChainInfo) (prices : PriceMap) :
    Except String (Option Holdings) :=
  if cfg.poolType = Stablestake then
    ElysPosition.computeStablestakeTVL env assetData prices
  else if cfg.poolType = ElysAMM then
    ElysPosition.computeAMMTVL env assetData prices
  else .error ("unsupported pool type: " ++ cfg.poolType)

/-- Stablestake principal holdings
(func (p ElysPosition) computeStablestakePrincipalHoldings); the second
component counts upstream queries. -/
def ElysPosition.computeStablestakePrincipalHoldings
    (cfg : ElysVenuePositionConfig) (env : ElysEnv) (assetData : ChainInfo)
    (prices : PriceMap) : Except String (Option Holdings) × Nat :=
  let amount := cfg.activeShares
  match env.stablestakePool with
  | .error e => (.error e, 1)
  | .ok poolData =>
    match poolData.pool with
    | none => (.error ("missing or invalid pool data"), 1)
    | some pool =>
      match pool.redemptionRate with
      | none => (.error ("missing or invalid redemption_rate in pool data"), 1)
      | some redemptionRateStr =>
        match parseFloat redemptionRateStr with
        | none => (.error ("parsing redemption_rate"), 1)
        | some redemptionRate =>
          match pool.depositDenom with
          | none => (.error ("missing or invalid deposit_denom in pool data"), 1)
          | some depositDenom =>
            match assetData.GetTokenInfo depositDenom with
            | .error e => (.error ("getting token info: " ++ e), 1)
            | .ok tokenInfo =>
              let adjustedAmount := amount / pow10 tokenInfo.decimals
              let holdings := adjustedAmount * redemptionRate
              match getTokenValues prices holdings tokenInfo with
              | .error e => (.error ("calculating token values: " ++ e), 1)
              | .ok (usdValue, atomValue) =>
                (.ok (some ⟨[⟨depositDenom, holdings, usdValue,
                  tokenInfo.display⟩], usdValue, atomValue⟩), 1)

/-- AMM principal holdings
(func (p ElysPosition) computeAMMPrincipalHoldings). -/
def ElysPosition.computeAMMPrincipalHoldings (cfg : ElysVenuePositionConfig)
    (env : ElysEnv) (assetData : ChainInfo) (prices : PriceMap) :
    Except String (Option Holdings) × Nat :=
  let amount := cfg.activeShares
  if amount = 0 then (.error ("LPAmount is zero, no holdings to compute"), 0)
  else
    match env.ammPool with
    | .error e => (.error ("fetching AMM pool data: " ++ e), 1)
    | .ok poolData =>
      match poolData.extraInfo with
      | none => (.error ("missing or invalid extra_info in AMM pool data"), 1)
      | some lpTokenPriceField =>
        match lpTokenPriceField with
        | none => (.error ("missing or invalid lp_token_price in AMM pool data"), 1)
        | some lpTokenPriceStr =>
          match parseFloat lpTokenPriceStr with
          | none => (.error ("parsing lp_token_price"), 1)
          | some lpTokenPrice =>
            let usdcDenom :=
              "ibc/F082B65C88E4B6D5EF1DB243CDA1D331D002759E938A0F5CD3FFDC5D53B3E349"
            match assetData.GetTokenInfo usdcDenom with
            | .error e => (.error ("getting token info: " ++ e), 1)
            | .ok tokenInfo =>
              let adjustedAmount := amount / pow10 18
              let holdings := adjustedAmount * lpTokenPrice
              match getTokenValues prices holdings tokenInfo with
              | .error e => (.error ("calculating token values: " ++ e), 1)
              | .ok (usdValue, atomValue) =>
                (.ok (some ⟨[⟨usdcDenom, holdings, usdValue,
                  tokenInfo.display⟩], usdValue, atomValue⟩), 1)

/-- Principal holdings of the Elys adapter
(func (p ElysPosition) ComputeAddressPrincipalHoldings): a position with
zero recorded shares short-circuits to an explicit empty Holdings before any
upstream query is issued. -/
def ElysPosition.ComputeAddressPrincipalHoldings
    (cfg : ElysVenuePositionConfig) (env : ElysEnv) (assetData : ChainInfo)
    (prices : PriceMap) : Except String (Option Holdings) × Nat :=
  if cfg.activeShares = 0 then (.ok (some ⟨[], 0, 0⟩), 0)
  else if cfg.poolType = Stablestake then
    ElysPosition.computeStablestakePrincipalHoldings cfg env assetData prices
  else if cfg.poolType = ElysAMM then
    ElysPosition.computeAMMPrincipalHoldings cfg env assetData prices
  else (.error ("unsupported pool type: " ++ cfg.poolType), 0)

/-- Body of the reward loop of the Elys adapter; every failure skips the
queried reward denom. -/
def elysRewardStep (env : ElysEnv) (assetData : ChainInfo) (prices : PriceMap)
    (queryDenom : String) : Option (Asset × ℚ) :=
  match env.rewardInfo queryDenom with
  | .error _ => none
  | .ok none => none
  | .ok (some userRewardInfo) =>
    match userRewardInfo.rewardDenom with
    | none => none
    | some rewardDenom =>
      match userRewardInfo.rewardPending with
      | none => none
      | some rewardPendingStr =>
        match parseFloat rewardPendingStr with
        | none => none
        | some rewardPending =>
          match assetData.GetTokenInfo rewardDenom with
          | .error _ => none
          | .ok tokenInfo =>
            let adjustedAmount := rewardPending / pow10 tokenInfo.decimals
            match getTokenValues prices adjustedAmount tokenInfo with
            | .error _ => none
            | .ok (usdValue, atomValue) =>
              some (⟨rewardDenom, adjustedAmount, usdValue,
                tokenInfo.display⟩, atomValue)

/-- Reward holdings of the Elys adapter
(func (p ElysPosition) ComputeAddressRewardHoldings): zero active shares
short-circuit; otherwise one query per reward denom is issued. -/
def ElysPosition.ComputeAddressRewardHoldings (cfg : ElysVenuePositionConfig)
    (env : ElysEnv) (assetData : ChainInfo) (prices : PriceMap) :
    Except String (Option Holdings) × Nat :=
  if cfg.activeShares = 0 then (.ok (some ⟨[], 0, 0⟩), 0)
  else
    let rewardDenoms := [UsdcRewardDenomForQuery, UedenRewardDenom]
    let r := accumAssets (elysRewardStep env assetData prices) rewardDenoms
    (.ok (some ⟨r.1, r.2.1, r.2.2⟩), rewardDenoms.length)

/-! ## Osmosis adapter -/

/-- Bid position configuration of the Osmosis adapter. -/
structure OsmosisBidPositionConfig where
  poolID : String
  address : String
  positionID : String
deriving Repr, DecidableEq

/-- One pool balance entry of the pools response. -/
structure OsmoBalance where
  denom : String
  amount : String
deriving Repr, DecidableEq

/-- Decoded position object of a concentrated-liquidity position: the inner
position info with its id and optional pool id. -/
structure OsmoPosInfo where
  positionId : String
  poolId : Option String
deriving Repr, DecidableEq

/-- A denom and amount pair inside a position (asset0, asset1 or one reward
coin). -/
structure OsmoCoin where
  denom : String
  amount : String
deriving Repr, DecidableEq

/-- One element of the positions list; posInfo is none when the inner
position object cast failed, and the reward lists are none when the
corresponding field cast failed. -/
structure OsmoPosition where
  posInfo : Option OsmoPosInfo
  asset0 : OsmoCoin
  asset1 : OsmoCoin
  claimableSpreadRewards : Option (List OsmoCoin)
  claimableIncentives : Option (List OsmoCoin)
deriving Repr, DecidableEq

/-- Pool-id mismatch message of the balance path. -/
def poolMismatchMsg (poolID positionId expected : String) : String :=
  "pool ID mismatch: found " ++ poolID ++ " for position " ++ positionId ++
    ", but expected " ++ expected

/-- Pool-id mismatch message of the rewards path. -/
def poolMismatchRewardsMsg (poolID positionId expected : String) : String :=
  "pool ID mismatch: found " ++ poolID ++ " for position " ++ positionId ++
    ", but bid config claims " ++ expected

/-- Balance extraction for the configured position
(func (p OsmosisPosition) processPositionBalances): positions whose id does
not match are skipped, a matching position with a different pool id is a
hard error, and the loop stops at the first match. -/
def processPositionBalances (cfg : OsmosisBidPositionConfig) :
    List (Option OsmoPosition) → Except String (List (String × Int))
  | [] => .ok []
  | none :: rest => processPositionBalances cfg rest
  | some pos :: rest =>
    match pos.posInfo with
    | none => processPositionBalances cfg rest
    | some posInfo =>
      if posInfo.positionId ≠ cfg.positionID then
        processPositionBalances cfg rest
      else
        let poolID := posInfo.poolId.getD ""
        if posInfo.poolId.isNone ∨ poolID ≠ cfg.poolID then
          .error (poolMismatchMsg poolID posInfo.positionId cfg.poolID)
        else
          .ok (assocSet
            (assocSet [] pos.asset0.denom ((parseInt64 pos.asset0.amount).getD 0))
            pos.asset1.denom ((parseInt64 pos.asset1.amount).getD 0))

/-- Accumulation of reward coins into the rewards map, mirroring the Go
map-increment on a zero-defaulting map. -/
def addRewardCoins (m : List (String × Int)) (coins : List OsmoCoin) :
    List (String × Int) :=
  coins.foldl
    (fun acc c =>
      assocSet acc c.denom
        ((acc.lookup c.denom).getD 0 + (parseInt64 c.amount).getD 0))
    m

/-- Reward extraction for the configured position
(func (p OsmosisPosition) processPositionRewards); structure as in the
balance path, with both claimable reward lists summed per denom. -/
def processPositionRewards (cfg : OsmosisBidPositionConfig) :
    List (Option OsmoPosition) → Except String (List (String × Int))
  | [] => .ok []
  | none :: rest => processPositionRewards cfg rest
  | some pos :: rest =>
    match pos.posInfo with
    | none => processPositionRewards cfg rest
    | some posInfo =>
      if posInfo.positionId ≠ cfg.positionID then
        processPositionRewards cfg rest
      else
        let poolID := posInfo.poolId.getD ""
        if posInfo.poolId.isNone ∨ poolID ≠ cfg.poolID then
          .error (poolMismatchRewardsMsg poolID posInfo.positionId cfg.poolID)
        else
          .ok (addRewardCoins
            (addRewardCoins [] (pos.claimableSpreadRewards.getD []))
            (pos.claimableIncentives.getD []))

/-- Valuation of a raw amount map
(func (p *OsmosisPosition) calculateAssetValues): the token map is indexed
directly, so an unknown denom silently yields the zero-value TokenInfo; a
price failure aborts the whole computation. -/
def OsmosisPosition.calculateAssetValues (assetData : ChainInfo)
    (prices : PriceMap) :
    List (String × Int) → Except String (List Asset × ℚ)
  | [] => .ok ([], 0)
  | (denom, amount) :: rest =>
    let tokenInfo := (assetData.tokens.lookup denom).getD zeroTokenInfo
    let adjustedAmount := (amount : ℚ) / pow10 tokenInfo.decimals
    match getTokenPrice prices tokenInfo.coingeckoID with
    | .error e => .error ("getting token price: " ++ e)
    | .ok price =>
      let usdValue := adjustedAmount * price
      match OsmosisPosition.calculateAssetValues assetData prices rest with
      | .error e => .error e
      | .ok (assets, totalUSD) =>
        .ok (⟨denom, adjustedAmount, usdValue, tokenInfo.display⟩ :: assets,
          usdValue + totalUSD)

/-- Recursion over the pool balances of the Osmosis TVL loop: entries that
are not objects are skipped, the token map is indexed directly (zero-value
TokenInfo for unknown denoms) and a price failure aborts. -/
def osmosisTVLAssets (assetData : ChainInfo) (prices : PriceMap) :
    List (Option OsmoBalance) → Except String (List Asset × ℚ)
  | [] => .ok ([], 0)
  | none :: rest => osmosisTVLAssets assetData prices rest
  | some balance :: rest =>
    let rawAmount := (parseInt64 balance.amount).getD 0
    let tokenInfo := (assetData.tokens.lookup balance.denom).getD zeroTokenInfo
    let adjustedAmount := (rawAmount : ℚ) / pow10 tokenInfo.decimals
    match getTokenPrice prices tokenInfo.coingeckoID with
    | .error e => .error ("fetching token price: " ++ e)
    | .ok price =>
      let usdValue := adjustedAmount * price
      match osmosisTVLAssets assetData prices rest with
      | .error e => .error e
      | .ok (assets, totalValueUSD) =>
        .ok (⟨balance.denom, adjustedAmount, usdValue, tokenInfo.display⟩ :: assets,
          usdValue + totalValueUSD)

/-- Upstream responses consumed by the Osmosis adapter; in each field the
outer none stands for a failed top-level cast. -/
structure OsmosisEnv where
  poolData : Except String (Option (List (Option OsmoBalance)))
  positions : Except String (Option (List (Option OsmoPosition)))

/-- TVL of the Osmosis pool (func (p OsmosisPosition) ComputeTVL). -/
def OsmosisPosition.ComputeTVL (env : OsmosisEnv) (assetData : ChainInfo)
    (prices : PriceMap) : Except String (Option Holdings) :=
  match env.poolData with
  | .error e => .error ("fetching pool data: " ++ e)
  | .ok none => .error ("invalid pool balances structure")
  | .ok (some balances) =>
    match osmosisTVLAssets assetData prices balances with
    | .error e => .error e
    | .ok (poolAssets, totalValueUSD) =>
      match getAtomPrice prices with
      | .error e => .error ("fetching ATOM price: " ++ e)
      | .ok atomPrice =>
        .ok (some ⟨poolAssets, totalValueUSD,
          if 0 < atomPrice then totalValueUSD / atomPrice else 0⟩)

/-- Principal holdings of the Osmosis adapter
(func (p OsmosisPosition) ComputeAddressPrincipalHoldings). -/
def OsmosisPosition.ComputeAddressPrincipalHoldings
    (cfg : OsmosisBidPositionConfig) (env : OsmosisEnv)
    (assetData : ChainInfo) (prices : PriceMap) :
    Except String (Option Holdings) :=
  match env.positions with
  | .error e => .error e
  | .ok none => .error ("invalid positions data structure")
  | .ok (some positions) =>
    match processPositionBalances cfg positions with
    | .error e => .error e
    | .ok balances =>
      match OsmosisPosition.calculateAssetValues assetData prices balances with
      | .error e => .error e
      | .ok (assets, totalUSD) =>
        match getAtomPrice prices with
        | .error e => .error ("getting ATOM price: " ++ e)
        | .ok atomPrice => .ok (some (createHoldings assets totalUSD atomPrice))

/-- Reward holdings of the Osmosis adapter
(func (p OsmosisPosition) ComputeAddressRewardHoldings). -/
def OsmosisPosition.ComputeAddressRewardHoldings
    (cfg : OsmosisBidPositionConfig) (env : OsmosisEnv)
    (assetData : ChainInfo) (prices : PriceMap) :
    Except String (Option Holdings) :=
  match env.positions with
  | .error e => .error e
  | .ok none => .error ("invalid positions data structure")
  | .ok (some positions) =>
    match processPositionRewards cfg positions with
    | .error e => .error e
    | .ok rewards =>
      match OsmosisPosition.calculateAssetValues assetData prices rewards with
      | .error e => .error e
      | .ok (assets, totalUSD) =>
        match getAtomPrice prices with
        | .error e => .error ("getting ATOM price: " ++ e)
        | .ok atomPrice => .ok (some (createHoldings assets totalUSD atomPrice))

/-! ## MissingPosition placeholder adapter (main.go) -/

/-- Placeholder adapter for not-yet-integrated protocols; it carries only
the protocol name of its venue configuration. -/
structure MissingPosition where
  protocol : String
deriving Repr, DecidableEq

/-- TVL of the placeholder (func (p MissingPosition) ComputeTVL): the source
returns a nil Holdings pointer and a nil error. -/
def MissingPosition.ComputeTVL (p : MissingPosition) (assetData : ChainInfo) :
    Except String (Option Holdings) :=
  .ok none

/-- Principal holdings of the placeholder: nil pointer, nil error. -/
def MissingPosition.ComputeAddressPrincipalHoldings (p : MissingPosition)
    (assetData : ChainInfo) (address : String) :
    Except String (Option Holdings) :=
  .ok none

/-- Reward holdings of the placeholder: nil pointer, nil error. -/
def MissingPosition.ComputeAddressRewardHoldings (p : MissingPosition)
    (assetData : ChainInfo) (address : String) :
    Except String (Option Holdings) :=
  .ok none

/-! ## Orchestrator (main.go, func computeHoldings) -/

/-- Per-venue holdings triple (struct VenueHoldings of the era of the
embedded computeHoldings, with value fields). -/
structure VenueHoldings where
  venueTotal : Holdings
  addressPrincipal : Holdings
  addressRewards : Holdings
deriving Repr, DecidableEq

/-- Results of the per-venue calls issued inside the computeHoldings loop:
adapter construction, asset-list fetch and the three adapter operations. -/
structure VenueEval where
  protocolConstruct : Except String Unit
  assetList : Except String ChainInfo
  tvl : Except String Holdings
  principal : Except String Holdings
  rewards : Except String Holdings

/-- Success of every call of one venue. -/
def VenueEval.allOk (v : VenueEval) : Bool :=
  exceptOk v.protocolConstruct && exceptOk v.assetList && exceptOk v.tvl &&
    exceptOk v.principal && exceptOk v.rewards

/-- Venue loop of func computeHoldings: the first failing call of any venue
aborts the whole bid computation with an error; otherwise the venue holdings
are appended in order.  The surrounding bid lookup and thirty-minute result
memoization are process I/O and are not part of the loop model. -/
def computeHoldings : List VenueEval → Except String (List VenueHoldings)
  | [] => .ok []
  | v :: rest =>
    match v.protocolConstruct with
    | .error e => .error ("error creating protocol: " ++ e)
    | .ok _ =>
      match v.assetList with
      | .error e => .error ("error fetching asset list: " ++ e)
      | .ok _ =>
        match v.tvl with
        | .error e => .error ("error computing TVL: " ++ e)
        | .ok tvl =>
          match v.principal with
          | .error e => .error ("error computing address principal holdings: " ++ e)
          | .ok addressHoldings =>
            match v.rewards with
            | .error e => .error ("error computing address reward holdings: " ++ e)
            | .ok rewardHoldings =>
              match computeHoldings rest with
              | .error e => .error e
              | .ok bidHoldings =>
                .ok (⟨tvl, addressHoldings, rewardHoldings⟩ :: bidHoldings)

/-! ## Numia historical price selection (func getNumiaHistoricalPrice) -/

/-- One historical price point of the Numia chart response; the open field
is renamed because open is reserved. -/
structure NumiaHistoricalPrice where
  time : Int
  high : ℚ
  low : ℚ
  close : ℚ
  openPrice : ℚ
  volume : ℚ
deriving Repr, DecidableEq

/-- Absolute value on int64 (func abs64). -/
def abs64 (n : Int) : Int := if n < 0 then -n else n

/-- The math.MaxInt64 sentinel initialising the smallest difference. -/
def maxInt64 : Int := 9223372036854775807

/-- Scan for the point whose timestamp is nearest to the target, keeping the
first point seen on ties (strict improvement test). -/
def findClosest (prices : List NumiaHistoricalPrice) (timestamp : Int) :
    Option NumiaHistoricalPrice :=
  (prices.foldl
    (fun acc p =>
      if abs64 (p.time - timestamp) < acc.1 then
        (abs64 (p.time - timestamp), some p)
      else acc)
    (maxInt64, (none : Option NumiaHistoricalPrice))).2

/-- Historical price resolution over a decoded time series: the close price
of the nearest point is returned, and an empty series is an error.  This
path performs one upstream fetch per call and keeps no cache. -/
def getNumiaHistoricalPrice
    (resp : Except String (List NumiaHistoricalPrice)) (timestamp : Int) :
    Except String ℚ :=
  match resp with
  | .error e => .error ("fetching historical price data: " ++ e)
  | .ok prices =>
    match findClosest prices timestamp with
    | none => .error ("no historical price data found for timestamp")
    | some closestPrice => .ok closestPrice.close

/-! ## Day-granular historical price cache -/

/-- Cache state of the day-granular historical price path: price-source id
and calendar date to USD price. -/
abbrev HistCache : Type := List ((String × String) × ℚ)

/-- Modelled from the spec: the day-granular historical price lookup
(PriceResolver.historicalPrice) is described in the specification but its
implementation is not among the provided sources; only the cache-free Numia
time-series variant is.  Per the spec, a cache hit returns immediately, a
miss issues one upstream call for the id and date and caches the result
permanently.  The third component counts upstream calls. -/
def historicalPrice (cache : HistCache) (id date : String)
    (fetch : Except String ℚ) : Except String ℚ × HistCache × Nat :=
  match List.lookup (id, date) cache with
  | some p => (.ok p, cache, 0)
  | none =>
    match fetch with
    | .error e => (.error e, cache, 1)
    | .ok p => (.ok p, cache ++ [((id, date), p)], 1)

/-! ## Association-list lemmas -/

lemma lookup_append_some {α β : Type} [BEq α] {m l : List (α × β)} {d : α}
    {v : β} (h : m.lookup d = some v) : (m ++ l).lookup d = some v := by
  induction m with
  | nil => simp [List.lookup] at h
  | cons p rest ih =>
    cases p with
    | mk k w =>
      simp only [List.lookup, List.cons_append] at h ⊢
      split at h <;> simp_all [List.lookup]

lemma lookup_append_none {α β : Type} [BEq α] {m : List (α × β)} {d : α}
    (l : List (α × β)) (h : m.lookup d = none) :
    (m ++ l).lookup d = l.lookup d := by
  induction m with
  | nil => simp
  | cons p rest ih =>
    cases p with
    | mk k w =>
      simp only [List.lookup, List.cons_append] at h ⊢
      split at h <;> simp_all [List.lookup]

lemma assocSet_lookup_self {β : Type} {m : List (String × β)} {k : String}
    (v : β) (h : m.lookup k = none) : (assocSet m k v).lookup k = some v := by
  unfold assocSet
  rw [h]
  simp only [Option.isSome_none, Bool.false_eq_true, if_false]
  rw [lookup_append_none _ h]
  simp [List.lookup]

lemma assocSet_lookup_other {β : Type} {m : List (String × β)} {k d : String}
    (v : β) (hk : m.lookup k = none) (hne : d ≠ k) :
    (assocSet m k v).lookup d = m.lookup d := by
  unfold assocSet
  rw [hk]
  simp only [Option.isSome_none, Bool.false_eq_true, if_false]
  cases hd : m.lookup d with
  | some w => exact lookup_append_some hd
  | none =>
    rw [lookup_append_none _ hd]
    simp [List.lookup, show (d == k) = false from by simp [hne]]

lemma addSkipTokens_cons (t : List (String × ChainTokenInfo))
    (p : String × SkipAsset) (rest : List (String × SkipAsset)) :
    addSkipTokens t (p :: rest) =
      addSkipTokens
        (if (t.lookup p.1).isSome then t else assocSet t p.1 (skipToken p.1 p.2))
        rest := by
  simp [addSkipTokens]

lemma addSkipTokens_preserves (skip : List (String × SkipAsset)) :
    ∀ (t : List (String × ChainTokenInfo)) (d : String) (ti : ChainTokenInfo),
      t.lookup d = some ti → (addSkipTokens t skip).lookup d = some ti := by
  induction skip with
  | nil => intro t d ti h; simpa [addSkipTokens] using h
  | cons p rest ih =>
    intro t d ti h
    rw [addSkipTokens_cons]
    by_cases hmem : (t.lookup p.1).isSome
    · rw [if_pos hmem]
      exact ih t d ti h
    · have hnone : t.lookup p.1 = none := by
        cases hl : t.lookup p.1 with
        | none => rfl
        | some w => rw [hl] at hmem; simp at hmem
      rw [if_neg hmem]
      have hne : d ≠ p.1 := by
        intro he
        rw [he, hnone] at h
        exact Option.noConfusion h
      exact ih _ d ti (by rw [assocSet_lookup_other _ hnone hne]; exact h)

lemma addSkipTokens_fills (skip : List (String × SkipAsset)) :
    ∀ (t : List (String × ChainTokenInfo)) (d : String) (a : SkipAsset),
      t.lookup d = none → skip.lookup d = some a →
      (addSkipTokens t skip).lookup d = some (skipToken d a) := by
  induction skip with
  | nil => intro t d a _ hs; simp [List.lookup] at hs
  | cons p rest ih =>
    intro t d a ht hs
    rw [addSkipTokens_cons]
    by_cases hd : d = p.1
    · have hbeq : (d == p.1) = true := by simp [hd]
      have ha : a = p.2 := by
        simp only [List.lookup, hbeq] at hs
        exact (Option.some.inj hs).symm
      have hnone : t.lookup p.1 = none := hd ▸ ht
      have hmem : ¬ ((t.lookup p.1).isSome = true) := by simp [hnone]
      rw [if_neg hmem]
      have hset : (assocSet t p.1 (skipToken p.1 p.2)).lookup d =
          some (skipToken d a) := by
        rw [hd, ha]
        exact assocSet_lookup_self _ hnone
      exact addSkipTokens_preserves rest _ d _ hset
    · have hbeq : (d == p.1) = false := by simp [hd]
      have hs2 : rest.lookup d = some a := by
        simpa only [List.lookup, hbeq] using hs
      by_cases hmem : (t.lookup p.1).isSome
      · rw [if_pos hmem]
        exact ih t d a ht hs2
      · have hnone : t.lookup p.1 = none := by
          cases hl : t.lookup p.1 with
          | none => rfl
          | some w => rw [hl] at hmem; simp at hmem
        rw [if_neg hmem]
        exact ih _ d a (by rw [assocSet_lookup_other _ hnone hd]; exact ht) hs2

/-! ## Aggregation-consistency lemmas -/

lemma accumAssets_fold_usd {γ : Type} (step : γ → Option (Asset × ℚ)) :
    ∀ (items : List γ) (as : List Asset) (u t : ℚ),
      u = (as.map Asset.usdValue).sum →
      (items.foldl
        (fun acc x =>
          match step x with
          | none => acc
          | some (a, atomValue) =>
            (acc.1 ++ [a], acc.2.1 + a.usdValue, acc.2.2 + atomValue))
        (as, u, t)).2.1 =
      ((items.foldl
        (fun acc x =>
          match step x with
          | none => acc
          | some (a, atomValue) =>
            (acc.1 ++ [a], acc.2.1 + a.usdValue, acc.2.2 + atomValue))
        (as, u, t)).1.map Asset.usdValue).sum := by
  intro items
  induction items with
  | nil => intro as u t h; simpa using h
  | cons x xs ih =>
    intro as u t h
    simp only [List.foldl_cons]
    cases hstep : step x with
    | none => simpa [hstep] using ih as u t h
    | some pair =>
      cases pair with
      | mk a atomValue =>
        simp only [hstep]
        exact ih (as ++ [a]) (u + a.usdValue) (t + atomValue)
          (by simp [h, List.sum_append])

lemma accumAssets_consistent {γ : Type} (step : γ → Option (Asset × ℚ))
    (items : List γ) :
    (accumAssets step items).2.1 =
      ((accumAssets step items).1.map Asset.usdValue).sum := by
  unfold accumAssets
  exact accumAssets_fold_usd step items [] 0 0 (by simp)

lemma elysAMMTVLAssets_consistent (assetData : ChainInfo) (prices : PriceMap) :
    ∀ (items : List (Option ElysAMMAsset)) (as : List Asset) (u t : ℚ),
      elysAMMTVLAssets assetData prices items = .ok (as, u, t) →
      u = (as.map Asset.usdValue).sum := by
  intro items
  induction items with
  | nil =>
    intro as u t h
    simp only [elysAMMTVLAssets] at h
    injection h with h
    injection h with h1 h2
    injection h2 with h2 h3
    simp [← h1, ← h2]
  | cons x xs ih =>
    intro as u t h
    cases x with
    | none => simp [elysAMMTVLAssets] at h
    | some poolAsset =>
      simp only [elysAMMTVLAssets] at h
      repeat' split at h
      any_goals injection h
      rename_i heq2 hpair
      injection hpair with h1 h23
      injection h23 with h2 h3
      subst h1
      subst h2
      simp [ih _ _ _ heq2]

lemma calculateAssetValues_consistent (assetData : ChainInfo)
    (prices : PriceMap) :
    ∀ (amounts : List (String × Int)) (as : List Asset) (u : ℚ),
      OsmosisPosition.calculateAssetValues assetData prices amounts = .ok (as, u) →
      u = (as.map Asset.usdValue).sum := by
  intro amounts
  induction amounts with
  | nil =>
    intro as u h
    simp only [OsmosisPosition.calculateAssetValues] at h
    injection h with h
    injection h with h1 h2
    simp [← h1, ← h2]
  | cons x xs ih =>
    intro as u h
    cases x with
    | mk denom amount =>
      simp only [OsmosisPosition.calculateAssetValues] at h
      split at h
      · exact absurd h (by simp)
      · split at h
        · exact absurd h (by simp)
        · rename_i price hprice assets2 totalUSD2 heq2
          injection h with h
          injection h with h1 h2
          subst h1 h2
          have := ih _ _ heq2
          simp [this]

lemma osmosisTVLAssets_consistent (assetData : ChainInfo) (prices : PriceMap) :
    ∀ (balances : List (Option OsmoBalance)) (as : List Asset) (u : ℚ),
      osmosisTVLAssets assetData prices balances = .ok (as, u) →
      u = (as.map Asset.usdValue).sum := by
  intro balances
  induction balances with
  | nil =>
    intro as u h
    simp only [osmosisTVLAssets] at h
    injection h with h
    injection h with h1 h2
    simp [← h1, ← h2]
  | cons x xs ih =>
    intro as u h
    cases x with
    | none =>
      simp only [osmosisTVLAssets] at h
      exact ih _ _ h
    | some balance =>
      simp only [osmosisTVLAssets] at h
      split at h
      · exact absurd h (by simp)
      · split at h
        · exact absurd h (by simp)
        · rename_i price hprice assets2 total2 heq2
          injection h with h
          injection h with h1 h2
          subst h1 h2
          have := ih _ _ heq2
          simp [this]

lemma mkAccum_consistent {γ : Type} (step : γ → Option (Asset × ℚ))
    (items : List γ) :
    Holdings.consistent
      ⟨(accumAssets step items).1, (accumAssets step items).2.1,
        (accumAssets step items).2.2⟩ :=
  accumAssets_consistent step items

lemma singleton_consistent (d : String) (amt usd atomv : ℚ) (disp : String) :
    Holdings.consistent ⟨[⟨d, amt, usd, disp⟩], usd, atomv⟩ := by
  simp [Holdings.consistent]

lemma empty_consistent : Holdings.consistent ⟨[], 0, 0⟩ := by
  simp [Holdings.consistent]

lemma createHoldings_consistent (assets : List Asset) (totalUSD atomPrice : ℚ)
    (hu : totalUSD = (assets.map Asset.usdValue).sum) :
    (createHoldings assets totalUSD atomPrice).consistent := by
  simp [createHoldings, Holdings.consistent, hu]

lemma dualityTVL_consistent (assetData : ChainInfo) (prices : PriceMap)
    (poolData : Except String (Option (List (Option DualityPoolEntry))))
    (h : Holdings)
    (hres : DualityPosition.ComputeTVL assetData prices poolData = .ok (some h)) :
    h.consistent := by
  unfold DualityPosition.ComputeTVL at hres
  repeat' split at hres
  any_goals injection hres
  rename_i hsome
  injection hsome with hsome
  subst hsome
  exact mkAccum_consistent _ _

lemma dualityPrincipal_consistent (cfg : DualityVenuePositionConfig)
    (env : DualityEnv) (assetData : ChainInfo) (prices : PriceMap) (h : Holdings)
    (hres : (DualityPosition.ComputeAddressPrincipalHoldings cfg env assetData
      prices).1 = .ok (some h)) : h.consistent := by
  unfold DualityPosition.ComputeAddressPrincipalHoldings at hres
  repeat' (first | dsimp only at hres | split at hres)
  any_goals injection hres
  rename_i hsome
  injection hsome with hsome
  subst hsome
  exact mkAccum_consistent _ _

lemma dualityRewards_consistent (assetData : ChainInfo) (address : String)
    (h : Holdings)
    (hres : DualityPosition.ComputeAddressRewardHoldings assetData address =
      .ok (some h)) : h.consistent := by
  unfold DualityPosition.ComputeAddressRewardHoldings at hres
  injection hres with hres
  injection hres with hres
  subst hres
  exact empty_consistent

lemma astroTVL_consistent (env : AstroportEnv) (assetData : ChainInfo)
    (prices : PriceMap) (h : Holdings)
    (hres : AstroportPosition.ComputeTVL env assetData prices = .ok (some h)) :
    h.consistent := by
  unfold AstroportPosition.ComputeTVL at hres
  repeat' (first | dsimp only at hres | split at hres)
  any_goals injection hres
  rename_i hsome
  injection hsome with hsome
  subst hsome
  exact mkAccum_consistent _ _

lemma astroPrincipal_consistent (env : AstroportEnv) (assetData : ChainInfo)
    (prices : PriceMap) (h : Holdings)
    (hres : AstroportPosition.ComputeAddressPrincipalHoldings env assetData
      prices = .ok (some h)) : h.consistent := by
  unfold AstroportPosition.ComputeAddressPrincipalHoldings at hres
  repeat' (first | dsimp only at hres | split at hres)
  any_goals injection hres
  rename_i hsome
  injection hsome with hsome
  subst hsome
  exact mkAccum_consistent _ _

lemma astroRewards_consistent (env : AstroportEnv) (assetData : ChainInfo)
    (prices : PriceMap) (h : Holdings)
    (hres : AstroportPosition.ComputeAddressRewardHoldings env assetData
      prices = .ok (some h)) : h.consistent := by
  unfold AstroportPosition.ComputeAddressRewardHoldings at hres
  repeat' (first | dsimp only at hres | split at hres)
  any_goals injection hres
  all_goals
    (rename_i hsome
     injection hsome with hsome
     subst hsome
     first
     | exact empty_consistent
     | exact mkAccum_consistent _ _)

lemma elysStablestakeTVL_consistent (env : ElysEnv) (assetData : ChainInfo)
    (prices : PriceMap) (h : Holdings)
    (hres : ElysPosition.computeStablestakeTVL env assetData prices =
      .ok (some h)) : h.consistent := by
  unfold ElysPosition.computeStablestakeTVL at hres
  repeat' (first | dsimp only at hres | split at hres)
  any_goals injection hres
  rename_i hsome
  injection hsome with hsome
  subst hsome
  exact singleton_consistent _ _ _ _ _

lemma elysAMMTVL_consistent (env : ElysEnv) (assetData : ChainInfo)
    (prices : PriceMap) (h : Holdings)
    (hres : ElysPosition.computeAMMTVL env assetData prices = .ok (some h)) :
    h.consistent := by
  unfold ElysPosition.computeAMMTVL at hres
  repeat' (first | dsimp only at hres | split at hres)
  any_goals injection hres
  rename_i hsome
  injection hsome with hsome
  subst hsome
  exact elysAMMTVLAssets_consistent assetData prices _ _ _ _ (by assumption)

lemma elysTVL_consistent (cfg : ElysVenuePositionConfig) (env : ElysEnv)
    (assetData : ChainInfo) (prices : PriceMap) (h : Holdings)
    (hres : ElysPosition.ComputeTVL cfg env assetData prices = .ok (some h)) :
    h.consistent := by
  unfold ElysPosition.ComputeTVL at hres
  split at hres
  · exact elysStablestakeTVL_consistent env assetData prices h hres
  · split at hres
    · exact elysAMMTVL_consistent env assetData prices h hres
    · exact absurd hres (by simp)

lemma elysStablestakePrincipal_consistent (cfg : ElysVenuePositionConfig)
    (env : ElysEnv) (assetData : ChainInfo) (prices : PriceMap) (h : Holdings)
    (hres : (ElysPosition.computeStablestakePrincipalHoldings cfg env assetData
      prices).1 = .ok (some h)) : h.consistent := by
  unfold ElysPosition.computeStablestakePrincipalHoldings at hres
  repeat' (first | dsimp only at hres | split at hres)
  any_goals injection hres
  rename_i hsome
  injection hsome with hsome
  subst hsome
  exact singleton_consistent _ _ _ _ _

lemma elysAMMPrincipal_consistent (cfg : ElysVenuePositionConfig)
    (env : ElysEnv) (assetData : ChainInfo) (prices : PriceMap) (h : Holdings)
    (hres : (ElysPosition.computeAMMPrincipalHoldings cfg env assetData
      prices).1 = .ok (some h)) : h.consistent := by
  unfold ElysPosition.computeAMMPrincipalHoldings at hres
  repeat' (first | dsimp only at hres | split at hres)
  any_goals injection hres
  rename_i hsome
  injection hsome with hsome
  subst hsome
  exact singleton_consistent _ _ _ _ _

lemma elysPrincipal_consistent (cfg : ElysVenuePositionConfig) (env : ElysEnv)
    (assetData : ChainInfo) (prices : PriceMap) (h : Holdings)
    (hres : (ElysPosition.ComputeAddressPrincipalHoldings cfg env assetData
      prices).1 = .ok (some h)) : h.consistent := by
  unfold ElysPosition.ComputeAddressPrincipalHoldings at hres
  repeat' (first | dsimp only at hres | split at hres)
  rotate_left
  · exact elysStablestakePrincipal_consistent cfg env assetData prices h hres
  · exact elysAMMPrincipal_consistent cfg env assetData prices h hres
  · exact absurd hres (by simp)
  · injection hres with hres
    injection hres with hres
    subst hres
    exact empty_consistent

lemma elysRewards_consistent (cfg : ElysVenuePositionConfig) (env : ElysEnv)
    (assetData : ChainInfo) (prices : PriceMap) (h : Holdings)
    (hres : (ElysPosition.ComputeAddressRewardHoldings cfg env assetData
      prices).1 = .ok (some h)) : h.consistent := by
  unfold ElysPosition.ComputeAddressRewardHoldings at hres
  repeat' (first | dsimp only at hres | split at hres)
  all_goals
    (injection hres with hres
     injection hres with hres
     subst hres
     first
     | exact empty_consistent
     | exact mkAccum_consistent _ _)

lemma osmoTVL_consistent (env : OsmosisEnv) (assetData : ChainInfo)
    (prices : PriceMap) (h : Holdings)
    (hres : OsmosisPosition.ComputeTVL env assetData prices = .ok (some h)) :
    h.consistent := by
  unfold OsmosisPosition.ComputeTVL at hres
  repeat' (first | dsimp only at hres | split at hres)
  any_goals injection hres
  all_goals
    (rename_i hsome
     injection hsome with hsome
     subst hsome
     exact osmosisTVLAssets_consistent assetData prices _ _ _ (by assumption))

lemma osmoPrincipal_consistent (cfg : OsmosisBidPositionConfig)
    (env : OsmosisEnv) (assetData : ChainInfo) (prices : PriceMap) (h : Holdings)
    (hres : OsmosisPosition.ComputeAddressPrincipalHoldings cfg env assetData
      prices = .ok (some h)) : h.consistent := by
  unfold OsmosisPosition.ComputeAddressPrincipalHoldings at hres
  repeat' (first | dsimp only at hres | split at hres)
  any_goals injection hres
  rename_i hsome
  injection hsome with hsome
  subst hsome
  exact createHoldings_consistent _ _ _
    (calculateAssetValues_consistent assetData prices _ _ _ (by assumption))

lemma osmoRewards_consistent (cfg : OsmosisBidPositionConfig)
    (env : OsmosisEnv) (assetData : ChainInfo) (prices : PriceMap) (h : Holdings)
    (hres : OsmosisPosition.ComputeAddressRewardHoldings cfg env assetData
      prices = .ok (some h)) : h.consistent := by
  unfold OsmosisPosition.ComputeAddressRewardHoldings at hres
  repeat' (first | dsimp only at hres | split at hres)
  any_goals injection hres
  rename_i hsome
  injection hsome with hsome
  subst hsome
  exact createHoldings_consistent _ _ _
    (calculateAssetValues_consistent assetData prices _ _ _ (by assumption))

/-! ## Adapter operation dispatcher

Sum type over every embedded adapter operation together with its inputs;
runAdapterCall dispatches exactly as the DexProtocol interface does. -/

/-- One invocation of an embedded adapter operation. -/
inductive AdapterCall where
  | dualityTVL (assetData : ChainInfo) (prices : PriceMap)
      (poolData : Except String (Option (List (Option DualityPoolEntry))))
  | dualityPrincipal (cfg : DualityVenuePositionConfig) (env : DualityEnv)
      (assetData : ChainInfo) (prices : PriceMap)
  | dualityRewards (assetData : ChainInfo) (address : String)
  | astroTVL (env : AstroportEnv) (assetData : ChainInfo) (prices : PriceMap)
  | astroPrincipal (env : AstroportEnv) (assetData : ChainInfo)
      (prices : PriceMap)
  | astroRewards (env : AstroportEnv) (assetData : ChainInfo)
      (prices : PriceMap)
  | elysTVL (cfg : ElysVenuePositionConfig) (env : ElysEnv)
      (assetData : ChainInfo) (prices : PriceMap)
  | elysPrincipal (cfg : ElysVenuePositionConfig) (env : ElysEnv)
      (assetData : ChainInfo) (prices : PriceMap)
  | elysRewards (cfg : ElysVenuePositionConfig) (env : ElysEnv)
      (assetData : ChainInfo) (prices : PriceMap)
  | osmoTVL (env : OsmosisEnv) (assetData : ChainInfo) (prices : PriceMap)
  | osmoPrincipal (cfg : OsmosisBidPositionConfig) (env : OsmosisEnv)
      (assetData : ChainInfo) (prices : PriceMap)
  | osmoRewards (cfg : OsmosisBidPositionConfig) (env : OsmosisEnv)
      (assetData : ChainInfo) (prices : PriceMap)
  | missingTVL (p : MissingPosition) (assetData : ChainInfo)
  | missingPrincipal (p : MissingPosition) (assetData : ChainInfo)
      (address : String)
  | missingRewards (p : MissingPosition) (assetData : ChainInfo)
      (address : String)

/-- Execution of one adapter operation (the query-count component of the
counted operations is dropped). -/
def runAdapterCall : AdapterCall → Except String (Option Holdings)
  | .dualityTVL assetData prices poolData =>
    DualityPosition.ComputeTVL assetData prices poolData
  | .dualityPrincipal cfg env assetData prices =>
    (DualityPosition.ComputeAddressPrincipalHoldings cfg env assetData prices).1
  | .dualityRewards assetData address =>
    DualityPosition.ComputeAddressRewardHoldings assetData address
  | .astroTVL env assetData prices =>
    AstroportPosition.ComputeTVL env assetData prices
  | .astroPrincipal env assetData prices =>
    AstroportPosition.ComputeAddressPrincipalHoldings env assetData prices
  | .astroRewards env assetData prices =>
    AstroportPosition.ComputeAddressRewardHoldings env assetData prices
  | .elysTVL cfg env assetData prices =>
    ElysPosition.ComputeTVL cfg env assetData prices
  | .elysPrincipal cfg env assetData prices =>
    (ElysPosition.ComputeAddressPrincipalHoldings cfg env assetData prices).1
  | .elysRewards cfg env assetData prices =>
    (ElysPosition.ComputeAddressRewardHoldings cfg env assetData prices).1
  | .osmoTVL env assetData prices =>
    OsmosisPosition.ComputeTVL env assetData prices
  | .osmoPrincipal cfg env assetData prices =>
    OsmosisPosition.ComputeAddressPrincipalHoldings cfg env assetData prices
  | .osmoRewards cfg env assetData prices =>
    OsmosisPosition.ComputeAddressRewardHoldings cfg env assetData prices
  | .missingTVL p assetData => p.ComputeTVL assetData
  | .missingPrincipal p assetData address =>
    p.ComputeAddressPrincipalHoldings assetData address
  | .missingRewards p assetData address =>
    p.ComputeAddressRewardHoldings assetData address

/-- Decidable equality on Except results, used to evaluate the embedded
operations on concrete inputs. -/
instance exceptDecEq {ε α : Type} [DecidableEq ε] [DecidableEq α] :
    DecidableEq (Except ε α)
  | .ok a, .ok b =>
    if h : a = b then .isTrue (by rw [h])
    else .isFalse (by intro hc; injection hc; contradiction)
  | .ok _, .error _ => .isFalse (by intro hc; injection hc)
  | .error _, .ok _ => .isFalse (by intro hc; injection hc)
  | .error a, .error b =>
    if h : a = b then .isTrue (by rw [h])
    else .isFalse (by intro hc; injection hc; contradiction)

/-! ## Claim theorems -/

/-- C1: Aggregation consistency — for every Holdings value returned by an
embedded protocol-adapter operation (ComputeTVL,
ComputeAddressPrincipalHoldings, ComputeAddressRewardHoldings of the
Duality, Astroport, Elys, Osmosis and MissingPosition adapters), the
TotalUSDC field equals the sum of the USDValue fields over all Asset
entries in Balances, including when assets were dropped from the list due
to lookup or price failures. -/
theorem aggregation_consistency (c : AdapterCall) (h : Holdings)
    (hres : runAdapterCall c = .ok (some h)) : h.consistent := by
  cases c with
  | dualityTVL assetData prices poolData =>
    exact dualityTVL_consistent assetData prices poolData h hres
  | dualityPrincipal cfg env assetData prices =>
    exact dualityPrincipal_consistent cfg env assetData prices h hres
  | dualityRewards assetData address =>
    exact dualityRewards_consistent assetData address h hres
  | astroTVL env assetData prices =>
    exact astroTVL_consistent env assetData prices h hres
  | astroPrincipal env assetData prices =>
    exact astroPrincipal_consistent env assetData prices h hres
  | astroRewards env assetData prices =>
    exact astroRewards_consistent env assetData prices h hres
  | elysTVL cfg env assetData prices =>
    exact elysTVL_consistent cfg env assetData prices h hres
  | elysPrincipal cfg env assetData prices =>
    exact elysPrincipal_consistent cfg env assetData prices h hres
  | elysRewards cfg env assetData prices =>
    exact elysRewards_consistent cfg env assetData prices h hres
  | osmoTVL env assetData prices =>
    exact osmoTVL_consistent env assetData prices h hres
  | osmoPrincipal cfg env assetData prices =>
    exact osmoPrincipal_consistent cfg env assetData prices h hres
  | osmoRewards cfg env assetData prices =>
    exact osmoRewards_consistent cfg env assetData prices h hres
  | missingTVL p assetData =>
    exact absurd hres (by simp [runAdapterCall, MissingPosition.ComputeTVL])
  | missingPrincipal p assetData address =>
    exact absurd hres
      (by simp [runAdapterCall, MissingPosition.ComputeAddressPrincipalHoldings])
  | missingRewards p assetData address =>
    exact absurd hres
      (by simp [runAdapterCall, MissingPosition.ComputeAddressRewardHoldings])

/-- Witness for C1: a concrete Duality TVL run whose three pool entries are
all dropped (missing denom, unparsable amount, unknown token) yields the
empty Holdings, which satisfies aggregation consistency. -/
theorem aggregation_consistency_witness :
    Holdings.consistent ⟨[], 0, 0⟩ :=
  aggregation_consistency
    (.dualityTVL ⟨"cosmoshub-4", [("uatom", ⟨"uatom", "ATOM", 6, "cosmos"⟩)]⟩
      [("cosmos", 10)]
      (.ok (some [some ⟨none, some "5000000"⟩, some ⟨some "uatom", some "xx"⟩,
        some ⟨some "untracked", some "7"⟩])))
    ⟨[], 0, 0⟩ rfl

/-- C2: Merge precedence — for every denom present in both the primary
chain registry and the secondary Skip registry (with arbitrary, possibly
conflicting metadata), a lookup on the catalog built by fetchAssetList
returns the primary registry TokenInfo; secondary entries are used only for
denoms absent from the primary result. -/
theorem merge_precedence (cid : String) (primary : List PrimaryAsset)
    (skip : List (String × SkipAsset)) (d : String) :
    (∀ ti : ChainTokenInfo, (buildPrimaryTokens primary).lookup d = some ti →
      ChainInfo.GetTokenInfo ⟨cid, fetchAssetListTokens primary skip⟩ d = .ok ti) ∧
    (∀ a : SkipAsset, (buildPrimaryTokens primary).lookup d = none →
      skip.lookup d = some a →
      ChainInfo.GetTokenInfo ⟨cid, fetchAssetListTokens primary skip⟩ d =
        .ok (skipToken d a)) := by
  constructor
  · intro ti hti
    have h := addSkipTokens_preserves skip (buildPrimaryTokens primary) d ti hti
    simp [ChainInfo.GetTokenInfo, fetchAssetListTokens, h]
  · intro a hnone hskip
    have h := addSkipTokens_fills skip (buildPrimaryTokens primary) d a hnone hskip
    simp [ChainInfo.GetTokenInfo, fetchAssetListTokens, h]

/-- Witness for C2: uatom appears in the primary registry with six decimals
and in the Skip registry with eight; the merged lookup returns six.  The
denom uosmo, absent from the primary result, is filled from Skip. -/
theorem merge_precedence_witness :
    ChainInfo.GetTokenInfo
      ⟨"cosmoshub-4",
        fetchAssetListTokens [⟨some "uatom", some "ATOM", some 6, some "cosmos"⟩]
          [("uatom", ⟨"ATOM", 8, "cosmos", "stATOM"⟩),
           ("uosmo", ⟨"OSMO", 6, "osmosis", "OSMO"⟩)]⟩ "uatom" =
      .ok ⟨"uatom", "ATOM", 6, "cosmos"⟩ ∧
    ChainInfo.GetTokenInfo
      ⟨"cosmoshub-4",
        fetchAssetListTokens [⟨some "uatom", some "ATOM", some 6, some "cosmos"⟩]
          [("uatom", ⟨"ATOM", 8, "cosmos", "stATOM"⟩),
           ("uosmo", ⟨"OSMO", 6, "osmosis", "OSMO"⟩)]⟩ "uosmo" =
      .ok (skipToken "uosmo" ⟨"OSMO", 6, "osmosis", "OSMO"⟩) :=
  ⟨(merge_precedence "cosmoshub-4" [⟨some "uatom", some "ATOM", some 6, some "cosmos"⟩]
      [("uatom", ⟨"ATOM", 8, "cosmos", "stATOM"⟩),
       ("uosmo", ⟨"OSMO", 6, "osmosis", "OSMO"⟩)] "uatom").1
      ⟨"uatom", "ATOM", 6, "cosmos"⟩ (by decide),
   (merge_precedence "cosmoshub-4" [⟨some "uatom", some "ATOM", some 6, some "cosmos"⟩]
      [("uatom", ⟨"ATOM", 8, "cosmos", "stATOM"⟩),
       ("uosmo", ⟨"OSMO", 6, "osmosis", "OSMO"⟩)] "uosmo").2
      ⟨"OSMO", 6, "osmosis", "OSMO"⟩ (by decide) (by decide)⟩

/-- Counterexample for C3: with the reference asset resolvable at price
zero, getTokenValues succeeds instead of failing — the division by the zero
reference price is performed without any error. -/
theorem reference_price_zero_no_error :
    exceptOk (getTokenValues [("x", 5), ("cosmos", 0)] 1 ⟨"x", "X", 6, "x"⟩) =
      true := by decide

/-- C3 (amended): a reference-asset price that is unresolvable (absent from
the cache even after refresh) fails getTokenValues with an error; a zero
reference price, however, does not fail: getTokenValues performs the
division regardless, and createHoldings substitutes a zero ATOM total for a
non-positive reference price instead of failing. -/
theorem reference_price_zero_behavior (prices : PriceMap) (amt : ℚ)
    (ti : ChainTokenInfo) :
    (List.lookup "cosmos" prices = none →
      ∃ e, getTokenValues prices amt ti = .error e) ∧
    (∀ p : ℚ, List.lookup ti.coingeckoID prices = some p →
      List.lookup "cosmos" prices = some 0 →
      ∃ v, getTokenValues prices amt ti = .ok v) ∧
    (∀ (assets : List Asset) (totalUSD : ℚ),
      (createHoldings assets totalUSD 0).totalAtom = 0) := by
  refine ⟨?_, ?_, ?_⟩
  · intro hnone
    cases htok : List.lookup ti.coingeckoID prices with
    | none =>
      refine ⟨"fetching token price: " ++ ("no price found for token: " ++
        ti.coingeckoID), ?_⟩
      simp [getTokenValues, getTokenPrice, getAtomPrice, htok]
    | some p =>
      refine ⟨"fetching ATOM price: " ++ ("no price found for token: " ++
        "cosmos"), ?_⟩
      simp [getTokenValues, getTokenPrice, getAtomPrice, htok, hnone]
  · intro p htok hzero
    refine ⟨(amt * p, 0), ?_⟩
    simp [getTokenValues, getTokenPrice, getAtomPrice, htok, hzero]
  · intro assets totalUSD
    simp [createHoldings]

/-- Witness for C3 (amended). -/
theorem reference_price_zero_behavior_witness :
    (∃ e, getTokenValues [("x", 5)] 1 ⟨"x", "X", 6, "x"⟩ = .error e) ∧
    (∃ v, getTokenValues [("x", 5), ("cosmos", 0)] 1 ⟨"x", "X", 6, "x"⟩ = .ok v) ∧
    (createHoldings [] 7 0).totalAtom = 0 :=
  ⟨(reference_price_zero_behavior [("x", 5)] 1 ⟨"x", "X", 6, "x"⟩).1 (by decide),
   (reference_price_zero_behavior [("x", 5), ("cosmos", 0)] 1
      ⟨"x", "X", 6, "x"⟩).2.1 5 (by decide) (by decide),
   (reference_price_zero_behavior [("x", 5), ("cosmos", 0)] 1
      ⟨"x", "X", 6, "x"⟩).2.2 [] 7⟩

/-- Counterexample for C4: the MissingPosition operations do not return an
all-empty Holdings value; they return no Holdings at all (a nil pointer)
alongside the nil error. -/
theorem missing_position_not_empty_holdings :
    MissingPosition.ComputeTVL ⟨"Margined"⟩ ⟨"neutron-1", []⟩ =
      .ok (none : Option Holdings) ∧
    MissingPosition.ComputeTVL ⟨"Margined"⟩ ⟨"neutron-1", []⟩ ≠
      .ok (some ⟨[], 0, 0⟩) ∧
    MissingPosition.ComputeAddressPrincipalHoldings ⟨"Margined"⟩
      ⟨"neutron-1", []⟩ "addr" ≠ .ok (some ⟨[], 0, 0⟩) ∧
    MissingPosition.ComputeAddressRewardHoldings ⟨"Margined"⟩
      ⟨"neutron-1", []⟩ "addr" ≠ .ok (some ⟨[], 0, 0⟩) := by
  refine ⟨rfl, ?_, ?_, ?_⟩ <;> intro hc <;>
    simp [MissingPosition.ComputeTVL,
      MissingPosition.ComputeAddressPrincipalHoldings,
      MissingPosition.ComputeAddressRewardHoldings] at hc

/-- C4 (amended): for every not-yet-integrated protocol, the constructed
MissingPosition adapter returns a nil Holdings pointer and no error from
each of its three operations — success without any Holdings value, rather
than an all-empty Holdings. -/
theorem missing_position_returns_nil (p : MissingPosition)
    (assetData : ChainInfo) (address : String) :
    p.ComputeTVL assetData = .ok none ∧
    p.ComputeAddressPrincipalHoldings assetData address = .ok none ∧
    p.ComputeAddressRewardHoldings assetData address = .ok none :=
  ⟨rfl, rfl, rfl⟩

lemma exceptOk_true {ε α : Type} {x : Except ε α} (h : exceptOk x = true) :
    ∃ v, x = .ok v := by
  cases x with
  | ok v => exact ⟨v, rfl⟩
  | error e => simp [exceptOk] at h

/-- Counterexample for C5: a bid with two venues whose first venue fails its
TVL computation makes computeHoldings abort with that error instead of
returning the remaining VenueHoldings list with a missing entry. -/
theorem compute_holdings_abort_example :
    computeHoldings
      [⟨.ok (), .ok ⟨"c", []⟩, .error "boom", .ok ⟨[], 0, 0⟩, .ok ⟨[], 0, 0⟩⟩,
       ⟨.ok (), .ok ⟨"c", []⟩, .ok ⟨[], 0, 0⟩, .ok ⟨[], 0, 0⟩,
        .ok ⟨[], 0, 0⟩⟩] =
      .error ("error computing TVL: boom") := rfl

/-- C5 (amended): computing the holdings of a bid aborts with an error at
the first venue whose adapter construction, asset-list fetch or adapter
operation fails; a list of VenueHoldings is returned exactly when every
venue succeeds, with one entry per venue.  The record-and-continue policy
exists only one level up, in the handler looping over all bids. -/
theorem compute_holdings_aborts (venues : List VenueEval) :
    ((∃ v ∈ venues, v.allOk = false) →
      ∃ e, computeHoldings venues = .error e) ∧
    ((∀ v ∈ venues, v.allOk = true) →
      ∃ hs, computeHoldings venues = .ok hs ∧ hs.length = venues.length) := by
  induction venues with
  | nil =>
    constructor
    · rintro ⟨v, hv, _⟩
      exact absurd hv (by simp)
    · intro _
      exact ⟨[], rfl, rfl⟩
  | cons v rest ih =>
    constructor
    · rintro ⟨w, hw, hbad⟩
      cases hv1 : v.protocolConstruct with
      | error e =>
        exact ⟨"error creating protocol: " ++ e, by simp [computeHoldings, hv1]⟩
      | ok u1 =>
        cases hv2 : v.assetList with
        | error e =>
          exact ⟨"error fetching asset list: " ++ e,
            by simp [computeHoldings, hv1, hv2]⟩
        | ok u2 =>
          cases hv3 : v.tvl with
          | error e =>
            exact ⟨"error computing TVL: " ++ e,
              by simp [computeHoldings, hv1, hv2, hv3]⟩
          | ok u3 =>
            cases hv4 : v.principal with
            | error e =>
              exact ⟨"error computing address principal holdings: " ++ e,
                by simp [computeHoldings, hv1, hv2, hv3, hv4]⟩
            | ok u4 =>
              cases hv5 : v.rewards with
              | error e =>
                exact ⟨"error computing address reward holdings: " ++ e,
                  by simp [computeHoldings, hv1, hv2, hv3, hv4, hv5]⟩
              | ok u5 =>
                have hvok : v.allOk = true := by
                  simp [VenueEval.allOk, hv1, hv2, hv3, hv4, hv5, exceptOk]
                have hwrest : w ∈ rest := by
                  rcases List.mem_cons.mp hw with hwv | hwr
                  · rw [hwv] at hbad
                    rw [hvok] at hbad
                    exact absurd hbad (by simp)
                  · exact hwr
                obtain ⟨e, he⟩ := ih.1 ⟨w, hwrest, hbad⟩
                exact ⟨e, by simp [computeHoldings, hv1, hv2, hv3, hv4, hv5, he]⟩
    · intro hall
      have hvok := hall v (List.mem_cons_self v rest)
      have h1 : exceptOk v.protocolConstruct = true := by
        have := hvok
        simp only [VenueEval.allOk, Bool.and_eq_true] at this
        exact this.1.1.1.1
      have h2 : exceptOk v.assetList = true := by
        have := hvok
        simp only [VenueEval.allOk, Bool.and_eq_true] at this
        exact this.1.1.1.2
      have h3 : exceptOk v.tvl = true := by
        have := hvok
        simp only [VenueEval.allOk, Bool.and_eq_true] at this
        exact this.1.1.2
      have h4 : exceptOk v.principal = true := by
        have := hvok
        simp only [VenueEval.allOk, Bool.and_eq_true] at this
        exact this.1.2
      have h5 : exceptOk v.rewards = true := by
        have := hvok
        simp only [VenueEval.allOk, Bool.and_eq_true] at this
        exact this.2
      obtain ⟨u1, hu1⟩ := exceptOk_true h1
      obtain ⟨u2, hu2⟩ := exceptOk_true h2
      obtain ⟨u3, hu3⟩ := exceptOk_true h3
      obtain ⟨u4, hu4⟩ := exceptOk_true h4
      obtain ⟨u5, hu5⟩ := exceptOk_true h5
      obtain ⟨hs, hhs, hlen⟩ := ih.2 (fun w hw => hall w (List.mem_cons_of_mem v hw))
      refine ⟨⟨u3, u4, u5⟩ :: hs, ?_, by simp [hlen]⟩
      simp [computeHoldings, hu1, hu2, hu3, hu4, hu5, hhs]

/-- Witness for C5 (amended): both conjuncts at concrete inputs — the
two-venue bid with a failing first venue aborts; an all-successful
single-venue bid yields a one-entry list. -/
theorem compute_holdings_aborts_witness :
    (∃ e, computeHoldings
      [⟨.ok (), .ok ⟨"c", []⟩, .error "boom", .ok ⟨[], 0, 0⟩, .ok ⟨[], 0, 0⟩⟩,
       ⟨.ok (), .ok ⟨"c", []⟩, .ok ⟨[], 0, 0⟩, .ok ⟨[], 0, 0⟩,
        .ok ⟨[], 0, 0⟩⟩] = .error e) ∧
    (∃ hs, computeHoldings
      [⟨.ok (), .ok ⟨"c", []⟩, .ok ⟨[], 0, 0⟩, .ok ⟨[], 0, 0⟩,
        .ok ⟨[], 0, 0⟩⟩] = .ok hs ∧ hs.length = 1) :=
  ⟨(compute_holdings_aborts _).1
      ⟨⟨.ok (), .ok ⟨"c", []⟩, .error "boom", .ok ⟨[], 0, 0⟩, .ok ⟨[], 0, 0⟩⟩,
        by simp, by decide⟩,
   (compute_holdings_aborts _).2 (by decide)⟩

/-- Counterexample for C6: a Duality position with zero recorded active
shares still issues the withdrawal-simulation and pool-config contract
queries (count two) and returns a two-entry balance list rather than an
explicit empty Holdings with no network call. -/
theorem duality_zero_shares_queries :
    (DualityPosition.ComputeAddressPrincipalHoldings ⟨"pool", "addr", 0⟩
      ⟨fun _ => .ok (some ["0", "0"]),
        .ok (some ⟨some ⟨some ⟨some "uatom"⟩, some ⟨some "uusdc"⟩⟩⟩)⟩
      ⟨"c", [("uatom", ⟨"uatom", "ATOM", 6, "cosmos"⟩),
        ("uusdc", ⟨"uusdc", "USDC", 6, "usd-coin"⟩)]⟩
      [("cosmos", 10), ("usd-coin", 1)]).2 = 2 ∧
    (match (DualityPosition.ComputeAddressPrincipalHoldings ⟨"pool", "addr", 0⟩
      ⟨fun _ => .ok (some ["0", "0"]),
        .ok (some ⟨some ⟨some ⟨some "uatom"⟩, some ⟨some "uusdc"⟩⟩⟩)⟩
      ⟨"c", [("uatom", ⟨"uatom", "ATOM", 6, "cosmos"⟩),
        ("uusdc", ⟨"uusdc", "USDC", 6, "usd-coin"⟩)]⟩
      [("cosmos", 10), ("usd-coin", 1)]).1 with
     | .ok (some hh) => hh.balances.length
     | _ => 0) = 2 := by
  constructor
  · rfl
  · rfl

/-- C6 (amended): the zero-shares short-circuit holds for the Elys adapter
— zero recorded active shares yield an explicit empty Holdings from both
the principal and the reward computation without any upstream query — but
not for every ActiveShares-carrying adapter: the Duality principal
computation issues its withdrawal-simulation query unconditionally. -/
theorem zero_shares_short_circuit (cfgE : ElysVenuePositionConfig)
    (envE : ElysEnv) (cfgD : DualityVenuePositionConfig) (envD : DualityEnv)
    (assetData : ChainInfo) (prices : PriceMap) :
    (cfgE.activeShares = 0 →
      ElysPosition.ComputeAddressPrincipalHoldings cfgE envE assetData prices =
        (.ok (some ⟨[], 0, 0⟩), 0) ∧
      ElysPosition.ComputeAddressRewardHoldings cfgE envE assetData prices =
        (.ok (some ⟨[], 0, 0⟩), 0)) ∧
    0 < (DualityPosition.ComputeAddressPrincipalHoldings cfgD envD assetData
      prices).2 := by
  constructor
  · intro hz
    constructor
    · simp [ElysPosition.ComputeAddressPrincipalHoldings, hz]
    · simp [ElysPosition.ComputeAddressRewardHoldings, hz]
  · unfold DualityPosition.ComputeAddressPrincipalHoldings
    cases hs : envD.simulateWithdraw cfgD.activeShares with
    | error e => simp [hs]
    | ok w =>
      cases w with
      | none => simp [hs]
      | some amounts =>
        cases hg : getPoolAssets envD.getConfig with
        | error e2 => by_cases hl : amounts.length = 2 <;> simp [hs, hg, hl]
        | ok pa => by_cases hl : amounts.length = 2 <;> simp [hs, hg, hl]

/-- Witness for C6 (amended). -/
theorem zero_shares_short_circuit_witness :
    (ElysPosition.ComputeAddressPrincipalHoldings
        ⟨"32767", "elys1x", 0, "stablestake"⟩
        ⟨.error "unreached", .error "unreached", fun _ => .error "unreached"⟩
        ⟨"elys-1", []⟩ [] = (.ok (some ⟨[], 0, 0⟩), 0) ∧
      ElysPosition.ComputeAddressRewardHoldings
        ⟨"32767", "elys1x", 0, "stablestake"⟩
        ⟨.error "unreached", .error "unreached", fun _ => .error "unreached"⟩
        ⟨"elys-1", []⟩ [] = (.ok (some ⟨[], 0, 0⟩), 0)) ∧
    0 < (DualityPosition.ComputeAddressPrincipalHoldings ⟨"pool", "addr", 0⟩
      ⟨fun _ => .error "down", .error "down"⟩ ⟨"c", []⟩ []).2 :=
  zero_shares_short_circuit ⟨"32767", "elys1x", 0, "stablestake"⟩
    ⟨.error "unreached", .error "unreached", fun _ => .error "unreached"⟩
    ⟨"pool", "addr", 0⟩ ⟨fun _ => .error "down", .error "down"⟩ ⟨"elys-1", []⟩ []
    |>.imp (fun f => f (by decide)) id

/-- Invariant of the nearest-point scan: after processing a list of points,
either nothing within the sentinel bound was seen, or the state carries the
first point of minimal absolute time difference. -/
def scanInv (ts : Int) (xs : List NumiaHistoricalPrice)
    (st : Int × Option NumiaHistoricalPrice) : Prop :=
  (st.2 = none ∧ st.1 = maxInt64 ∧
    ∀ p ∈ xs, ¬ (abs64 (p.time - ts) < maxInt64)) ∨
  (∃ c l₁ l₂, st.2 = some c ∧ xs = l₁ ++ c :: l₂ ∧
    st.1 = abs64 (c.time - ts) ∧ st.1 < maxInt64 ∧
    (∀ p ∈ l₁, st.1 < abs64 (p.time - ts)) ∧
    (∀ p ∈ xs, st.1 ≤ abs64 (p.time - ts)))

lemma findClosest_invariant (ts : Int) :
    ∀ (ys xs : List NumiaHistoricalPrice)
      (st : Int × Option NumiaHistoricalPrice),
      scanInv ts xs st →
      scanInv ts (xs ++ ys)
        (ys.foldl
          (fun acc p =>
            if abs64 (p.time - ts) < acc.1 then (abs64 (p.time - ts), some p)
            else acc)
          st) := by
  intro ys
  induction ys with
  | nil => intro xs st h; simpa using h
  | cons y ys ih =>
    intro xs st h
    have hstep : scanInv ts (xs ++ [y])
        (if abs64 (y.time - ts) < st.1 then (abs64 (y.time - ts), some y)
         else st) := by
      by_cases hlt : abs64 (y.time - ts) < st.1
      · rw [if_pos hlt]
        rcases h with ⟨h2none, h1max, hall⟩ | ⟨c, l₁, l₂, hc, hxs, h1, hmax, hstrict, hle⟩
        · refine Or.inr ⟨y, xs, [], rfl, by simp, rfl, ?_, ?_, ?_⟩
          · rw [h1max] at hlt
            exact hlt
          · intro p hp
            have := hall p hp
            have hge : maxInt64 ≤ abs64 (p.time - ts) := not_lt.mp this
            rw [h1max] at hlt
            exact lt_of_lt_of_le hlt hge
          · intro p hp
            rcases List.mem_append.mp hp with hxs1 | hy
            · have := hall p hxs1
              have hge : maxInt64 ≤ abs64 (p.time - ts) := not_lt.mp this
              rw [h1max] at hlt
              exact le_of_lt (lt_of_lt_of_le hlt hge)
            · have : p = y := by simpa using hy
              rw [this]
        · refine Or.inr ⟨y, xs, [], rfl, by simp, rfl,
            lt_trans hlt hmax, ?_, ?_⟩
          · intro p hp
            exact lt_of_lt_of_le hlt (hle p hp)
          · intro p hp
            rcases List.mem_append.mp hp with hxs1 | hy
            · exact le_of_lt (lt_of_lt_of_le hlt (hle p hxs1))
            · have : p = y := by simpa using hy
              rw [this]
      · rw [if_neg hlt]
        rcases h with ⟨h2none, h1max, hall⟩ | ⟨c, l₁, l₂, hc, hxs, h1, hmax, hstrict, hle⟩
        · refine Or.inl ⟨h2none, h1max, ?_⟩
          intro p hp
          rcases List.mem_append.mp hp with hxs1 | hy
          · exact hall p hxs1
          · have : p = y := by simpa using hy
            rw [this, ← h1max]
            exact hlt
        · refine Or.inr ⟨c, l₁, l₂ ++ [y], hc, ?_, h1, hmax, hstrict, ?_⟩
          · rw [hxs]
            simp
          · intro p hp
            rcases List.mem_append.mp hp with hxs1 | hy
            · exact hle p hxs1
            · have : p = y := by simpa using hy
              rw [this]
              exact not_lt.mp hlt
    have := ih (xs ++ [y]) _ hstep
    simpa [List.append_assoc] using this

/-- C7: Nearest-timestamp historical price selection — for every non-empty
decoded time series whose time differences stay below the int64 sentinel,
getNumiaHistoricalPrice returns the close price of a point whose timestamp
has the smallest absolute difference from the target, every point strictly
before it in the series having a strictly larger difference (ties keep the
earliest-seen point); an empty series yields an error. -/
theorem numia_nearest_selection (prices : List NumiaHistoricalPrice)
    (timestamp : Int) :
    (prices ≠ [] →
      (∀ p ∈ prices, abs64 (p.time - timestamp) < maxInt64) →
      ∃ c l₁ l₂, prices = l₁ ++ c :: l₂ ∧
        getNumiaHistoricalPrice (.ok prices) timestamp = .ok c.close ∧
        (∀ p ∈ l₁,
          abs64 (c.time - timestamp) < abs64 (p.time - timestamp)) ∧
        (∀ p ∈ prices,
          abs64 (c.time - timestamp) ≤ abs64 (p.time - timestamp))) ∧
    getNumiaHistoricalPrice (.ok ([] : List NumiaHistoricalPrice)) timestamp =
      .error ("no historical price data found for timestamp") := by
  constructor
  · intro hne hbound
    have hinv := findClosest_invariant timestamp prices []
      (maxInt64, none) (Or.inl ⟨rfl, rfl, by simp⟩)
    simp only [List.nil_append] at hinv
    rcases hinv with ⟨h2, _, hall⟩ | ⟨c, l₁, l₂, hc, hxs, h1, _, hstrict, hle⟩
    · obtain ⟨p, hp⟩ := List.exists_mem_of_ne_nil prices hne
      exact absurd (hbound p hp) (hall p hp)
    · refine ⟨c, l₁, l₂, hxs, ?_, ?_, ?_⟩
      · simp only [getNumiaHistoricalPrice, findClosest]
        rw [hc]
      · intro p hp
        have := hstrict p hp
        rw [h1] at this
        exact this
      · intro p hp
        have := hle p hp
        rw [h1] at this
        exact this
  · rfl

/-- Witness for C7: the spec example — points at times 100, 200 and 400 and
a query at 250 select the point at 200 and return its close price 22. -/
theorem numia_nearest_selection_witness :
    (∃ c l₁ l₂,
      [(⟨100, 0, 0, 11, 0, 0⟩ : NumiaHistoricalPrice), ⟨200, 0, 0, 22, 0, 0⟩,
        ⟨400, 0, 0, 44, 0, 0⟩] = l₁ ++ c :: l₂ ∧
      getNumiaHistoricalPrice
        (.ok [⟨100, 0, 0, 11, 0, 0⟩, ⟨200, 0, 0, 22, 0, 0⟩,
          ⟨400, 0, 0, 44, 0, 0⟩]) 250 = .ok c.close ∧
      (∀ p ∈ l₁, abs64 (c.time - 250) < abs64 (p.time - 250)) ∧
      (∀ p ∈ [(⟨100, 0, 0, 11, 0, 0⟩ : NumiaHistoricalPrice),
          ⟨200, 0, 0, 22, 0, 0⟩, ⟨400, 0, 0, 44, 0, 0⟩],
        abs64 (c.time - 250) ≤ abs64 (p.time - 250))) ∧
    getNumiaHistoricalPrice
      (.ok [(⟨100, 0, 0, 11, 0, 0⟩ : NumiaHistoricalPrice),
        ⟨200, 0, 0, 22, 0, 0⟩, ⟨400, 0, 0, 44, 0, 0⟩]) 250 = .ok 22 :=
  ⟨(numia_nearest_selection
      [⟨100, 0, 0, 11, 0, 0⟩, ⟨200, 0, 0, 22, 0, 0⟩, ⟨400, 0, 0, 44, 0, 0⟩]
      250).1 (by decide) (by decide), rfl⟩

/-- C8: the day-granular historical price cache is append-only and
permanent — a cached (id, date) pair is served identically with no upstream
call and no cache change; a successful miss inserts the pair, after which
the exact pair is cached; and no lookup ever removes or alters an existing
entry.  (Settled against the spec model, since the day-granular path is not
among the provided sources; see the doc comment of historicalPrice.) -/
theorem historical_cache_append_only (cache : HistCache) (id date : String)
    (p : ℚ) (fetch : Except String ℚ) :
    (List.lookup (id, date) cache = some p →
      historicalPrice cache id date fetch = (.ok p, cache, 0)) ∧
    (List.lookup (id, date) cache = none → fetch = .ok p →
      historicalPrice cache id date fetch =
        (.ok p, cache ++ [((id, date), p)], 1) ∧
      List.lookup (id, date) (cache ++ [((id, date), p)]) = some p) ∧
    (∀ (k : String × String) (v : ℚ), List.lookup k cache = some v →
      List.lookup k (historicalPrice cache id date fetch).2.1 = some v) := by
  refine ⟨?_, ?_, ?_⟩
  · intro h
    simp [historicalPrice, h]
  · intro h hf
    constructor
    · simp [historicalPrice, h, hf]
    · rw [lookup_append_none _ h]
      simp [List.lookup]
  · intro k v hk
    unfold historicalPrice
    cases hl : List.lookup (id, date) cache with
    | some q => exact hk
    | none =>
      cases fetch with
      | error e => exact hk
      | ok q => exact lookup_append_some hk

/-- Witness for C8: a concrete cache already holding the cosmos price for
one date serves it unchanged with zero fetches, a fresh pair is inserted on
a miss, and the pre-existing entry survives the insertion. -/
theorem historical_cache_append_only_witness :
    historicalPrice [(("cosmos", "17-01-2025"), 10)] "cosmos" "17-01-2025"
      (.error "offline") = (.ok 10, [(("cosmos", "17-01-2025"), 10)], 0) ∧
    historicalPrice [(("cosmos", "17-01-2025"), 10)] "osmosis" "17-01-2025"
      (.ok 2) =
      (.ok 2, [(("cosmos", "17-01-2025"), 10),
        (("osmosis", "17-01-2025"), 2)], 1) ∧
    List.lookup ("cosmos", "17-01-2025")
      (historicalPrice [(("cosmos", "17-01-2025"), 10)] "osmosis" "17-01-2025"
        (.ok 2)).2.1 = some 10 :=
  ⟨(historical_cache_append_only [(("cosmos", "17-01-2025"), 10)] "cosmos"
      "17-01-2025" 10 (.error "offline")).1 (by decide),
   ((historical_cache_append_only [(("cosmos", "17-01-2025"), 10)] "osmosis"
      "17-01-2025" 2 (.ok 2)).2.1 (by decide) rfl).1,
   (historical_cache_append_only [(("cosmos", "17-01-2025"), 10)] "osmosis"
      "17-01-2025" 2 (.ok 2)).2.2 ("cosmos", "17-01-2025") 10 (by decide)⟩

/-- Counterexample for C9: the Osmosis calculateAssetValues call site does
not fail with a NotFound error for a denom absent from the catalog — it
silently substitutes the zero-value TokenInfo (zero decimals, empty price
id) and succeeds whenever the empty price id happens to resolve. -/
theorem osmosis_silent_zero_tokeninfo :
    exceptOk (OsmosisPosition.calculateAssetValues ⟨"osmosis-1", []⟩
      [("", 2), ("cosmos", 5)] [("unknowndenom", 10)]) = true ∧
    ChainInfo.GetTokenInfo ⟨"osmosis-1", []⟩ "unknowndenom" =
      .error ("token info not found for denom: unknowndenom") := by
  constructor
  · rfl
  · rfl

/-- C9 (amended): a token-metadata lookup through ChainInfo.GetTokenInfo
fails with an explicit NotFound error for every denom absent from the
catalog; but not every call site uses it — the Osmosis adapter indexes the
token map directly, so calculateAssetValues silently substitutes the
zero-value TokenInfo for an unknown denom and produces an Asset valued from
zero decimals and the empty price id instead of a NotFound failure. -/
theorem token_lookup_explicit_failure (c : ChainInfo) (denom : String) :
    (c.tokens.lookup denom = none →
      ChainInfo.GetTokenInfo c denom =
        .error ("token info not found for denom: " ++ denom)) ∧
    (∀ (prices : PriceMap) (a : Int) (p : ℚ),
      c.tokens.lookup denom = none → List.lookup "" prices = some p →
      OsmosisPosition.calculateAssetValues c prices [(denom, a)] =
        .ok ([⟨denom, (a : ℚ), (a : ℚ) * p, ""⟩], (a : ℚ) * p)) := by
  constructor
  · intro h
    simp [ChainInfo.GetTokenInfo, h]
  · intro prices a p hnone hp
    simp [OsmosisPosition.calculateAssetValues, hnone, zeroTokenInfo,
      getTokenPrice, hp, pow10]

/-- Witness for C9 (amended). -/
theorem token_lookup_explicit_failure_witness :
    ChainInfo.GetTokenInfo ⟨"osmosis-1", []⟩ "unknowndenom" =
      .error ("token info not found for denom: " ++ "unknowndenom") ∧
    OsmosisPosition.calculateAssetValues ⟨"osmosis-1", []⟩
      [("", 2), ("cosmos", 5)] [("unknowndenom", 10)] =
      .ok ([⟨"unknowndenom", (10 : ℚ), (10 : ℚ) * 2, ""⟩], (10 : ℚ) * 2) :=
  ⟨(token_lookup_explicit_failure ⟨"osmosis-1", []⟩ "unknowndenom").1 (by decide),
   (token_lookup_explicit_failure ⟨"osmosis-1", []⟩ "unknowndenom").2
      [("", 2), ("cosmos", 5)] 10 2 (by decide) (by decide)⟩

/-- C10: Osmosis position matching — in both the principal and the reward
path, a position whose position_id differs from the configured one is
skipped without error; the position matching the configured position_id but
reporting a different (or missing) pool_id makes the computation fail with
a pool-ID-mismatch error, which the adapter operations propagate. -/
theorem osmosis_poolid_mismatch :
    (∀ (cfg : OsmosisBidPositionConfig) (x : Option OsmoPosition)
        (rest : List (Option OsmoPosition)),
      (x = none ∨ ∃ pos, x = some pos ∧ (pos.posInfo = none ∨
        ∃ pinfo, pos.posInfo = some pinfo ∧
          pinfo.positionId ≠ cfg.positionID)) →
      processPositionBalances cfg (x :: rest) =
        processPositionBalances cfg rest ∧
      processPositionRewards cfg (x :: rest) =
        processPositionRewards cfg rest) ∧
    (∀ (cfg : OsmosisBidPositionConfig) (pos : OsmoPosition)
        (pinfo : OsmoPosInfo) (rest : List (Option OsmoPosition)),
      pos.posInfo = some pinfo → pinfo.positionId = cfg.positionID →
      (pinfo.poolId = none ∨ ∃ q, pinfo.poolId = some q ∧ q ≠ cfg.poolID) →
      (∃ e, processPositionBalances cfg (some pos :: rest) = .error e) ∧
      (∃ e, processPositionRewards cfg (some pos :: rest) = .error e)) ∧
    (∀ (cfg : OsmosisBidPositionConfig) (env : OsmosisEnv)
        (assetData : ChainInfo) (prices : PriceMap)
        (positions : List (Option OsmoPosition)) (e : String),
      env.positions = .ok (some positions) →
      (processPositionBalances cfg positions = .error e →
        OsmosisPosition.ComputeAddressPrincipalHoldings cfg env assetData
          prices = .error e) ∧
      (processPositionRewards cfg positions = .error e →
        OsmosisPosition.ComputeAddressRewardHoldings cfg env assetData
          prices = .error e)) := by
  refine ⟨?_, ?_, ?_⟩
  · intro cfg x rest hskip
    rcases hskip with hnone | ⟨pos, hx, hinfo⟩
    · rw [hnone]
      exact ⟨rfl, rfl⟩
    · rcases hinfo with hpnone | ⟨pinfo, hpi, hne⟩
      · rw [hx]
        constructor
        · simp [processPositionBalances, hpnone]
        · simp [processPositionRewards, hpnone]
      · rw [hx]
        constructor
        · simp [processPositionBalances, hpi, hne]
        · simp [processPositionRewards, hpi, hne]
  · intro cfg pos pinfo rest hpi hpid hmis
    have hcond : pinfo.poolId = none ∨ ¬ pinfo.poolId.getD "" = cfg.poolID := by
      rcases hmis with hqnone | ⟨q, hq, hqne⟩
      · exact Or.inl hqnone
      · refine Or.inr ?_
        rw [hq]
        simpa using hqne
    constructor
    · refine ⟨poolMismatchMsg (pinfo.poolId.getD "") cfg.positionID
        cfg.poolID, ?_⟩
      simp [processPositionBalances, hpi, hpid, hcond]
    · refine ⟨poolMismatchRewardsMsg (pinfo.poolId.getD "") cfg.positionID
        cfg.poolID, ?_⟩
      simp [processPositionRewards, hpi, hpid, hcond]
  · intro cfg env assetData prices positions e henv
    constructor
    · intro herr
      simp [OsmosisPosition.ComputeAddressPrincipalHoldings, henv, herr]
    · intro herr
      simp [OsmosisPosition.ComputeAddressRewardHoldings, henv, herr]

/-- Witness for C10: a non-matching position id is skipped in both paths; a
matching position id with a different pool id errors in both paths; the
principal operation propagates that error. -/
theorem osmosis_poolid_mismatch_witness :
    (processPositionBalances ⟨"1283", "osmo1x", "11124334"⟩
        (some ⟨some ⟨"99", some "1283"⟩, ⟨"uosmo", "1"⟩, ⟨"uatom", "2"⟩,
          none, none⟩ :: []) =
      processPositionBalances ⟨"1283", "osmo1x", "11124334"⟩ [] ∧
     processPositionRewards ⟨"1283", "osmo1x", "11124334"⟩
        (some ⟨some ⟨"99", some "1283"⟩, ⟨"uosmo", "1"⟩, ⟨"uatom", "2"⟩,
          none, none⟩ :: []) =
      processPositionRewards ⟨"1283", "osmo1x", "11124334"⟩ []) ∧
    ((∃ e, processPositionBalances ⟨"1283", "osmo1x", "11124334"⟩
        [some ⟨some ⟨"11124334", some "2371"⟩, ⟨"uosmo", "1"⟩, ⟨"uatom", "2"⟩,
          none, none⟩] = .error e) ∧
     (∃ e, processPositionRewards ⟨"1283", "osmo1x", "11124334"⟩
        [some ⟨some ⟨"11124334", some "2371"⟩, ⟨"uosmo", "1"⟩, ⟨"uatom", "2"⟩,
          none, none⟩] = .error e)) ∧
    (processPositionBalances ⟨"1283", "osmo1x", "11124334"⟩
        [some ⟨some ⟨"11124334", some "2371"⟩, ⟨"uosmo", "1"⟩, ⟨"uatom", "2"⟩,
          none, none⟩] = .error (poolMismatchMsg "2371" "11124334" "1283") →
      OsmosisPosition.ComputeAddressPrincipalHoldings
        ⟨"1283", "osmo1x", "11124334"⟩
        ⟨.error "unused",
          .ok (some [some ⟨some ⟨"11124334", some "2371"⟩, ⟨"uosmo", "1"⟩,
            ⟨"uatom", "2"⟩, none, none⟩])⟩
        ⟨"osmosis-1", []⟩ [] = .error (poolMismatchMsg "2371" "11124334" "1283")) :=
  ⟨osmosis_poolid_mismatch.1 ⟨"1283", "osmo1x", "11124334"⟩
      (some ⟨some ⟨"99", some "1283"⟩, ⟨"uosmo", "1"⟩, ⟨"uatom", "2"⟩, none,
        none⟩) []
      (Or.inr ⟨_, rfl, Or.inr ⟨⟨"99", some "1283"⟩, rfl, by decide⟩⟩),
   osmosis_poolid_mismatch.2.1 ⟨"1283", "osmo1x", "11124334"⟩
      ⟨some ⟨"11124334", some "2371"⟩, ⟨"uosmo", "1"⟩, ⟨"uatom", "2"⟩, none,
        none⟩ ⟨"11124334", some "2371"⟩ [] rfl rfl
      (Or.inr ⟨"2371", rfl, by decide⟩),
   fun hpre =>
     (osmosis_poolid_mismatch.2.2 ⟨"1283", "osmo1x", "11124334"⟩
        ⟨.error "unused",
          .ok (some [some ⟨some ⟨"11124334", some "2371"⟩, ⟨"uosmo", "1"⟩,
            ⟨"uatom", "2"⟩, none, none⟩])⟩
        ⟨"osmosis-1", []⟩ []
        [some ⟨some ⟨"11124334", some "2371"⟩, ⟨"uosmo", "1"⟩, ⟨"uatom", "2"⟩,
          none, none⟩]
        (poolMismatchMsg "2371" "11124334" "1283") rfl).1 hpre⟩

end DeplTrack
